import Mathlib

set_option maxHeartbeats 1000000

/- Shallow embedding of the spreadsheet extraction-and-reconciliation
pipeline of app/api/process-xlsx/route.ts (the text-driven variant) and
its helpers, together with theorems settling the specification's claims.

Conventions used throughout:
* machine values parsed from JSON / held in JS variables are modelled by
  the inductive `JValue`; JS `undefined` for an absent object field is
  modelled by `Option` (`none` = the field is absent);
* JS exceptions (TypeError on property access of `undefined`, `throw new
  Error(...)`) are modelled by `Except String`;
* the ExcelJS workbook produced by an emitter is modelled as the ordered
  list of mutation events (`Ev`) the emitter performs on it; purely
  cosmetic calls (fonts, alignment) carry no data and are omitted. -/

/-- A parsed JS/JSON value, the result of `JSON.parse` in the route
handler.  Numbers are modelled as integers: every numeric literal carried
by this pipeline's data (serial numbers, row heights, quantities) is
integral. -/
inductive JValue where
  | null
  | bool (b : Bool)
  | num (n : Int)
  | str (s : String)
  | arr (elems : List JValue)
  | obj (fields : List (String × JValue))
deriving Repr

/-- JS truthiness of a defined value (`if (v)`).  `null`, `false`, `0` and
`""` are falsy; arrays and objects are always truthy. -/
def JValue.truthy : JValue → Bool
  | .null => false
  | .bool b => b
  | .num n => n != 0
  | .str s => s != ""
  | .arr _ => true
  | .obj _ => true

mutual

/-- JS `String(v)` for a defined value.  Arrays stringify by joining the
stringifications of their elements with `","` (with `null` elements
rendered empty), objects as `"[object Object]"`. -/
def JValue.jsToString : JValue → String
  | .null => "null"
  | .bool b => if b then "true" else "false"
  | .num n => toString n
  | .str s => s
  | .arr xs => String.intercalate "," (jsToStringElems xs)
  | .obj _ => "[object Object]"

/-- Stringifications of the elements of an array being joined: JS `join`
renders `null` elements as the empty string. -/
def jsToStringElems : List JValue → List String
  | [] => []
  | .null :: rest => "" :: jsToStringElems rest
  | v :: rest => v.jsToString :: jsToStringElems rest

end

/-- JS `x || ""` where `x` may be `undefined` (absent array index or
object field): the value if defined and truthy, `""` otherwise. -/
def jsOrEmptyOpt : Option JValue → JValue
  | some v => if v.truthy then v else .str ""
  | none => .str ""

/-- JS `a || b` on defined values. -/
def jsOr (a b : JValue) : JValue := if a.truthy then a else b

/-- JS `s.toLowerCase()`.  `Char.toLower` lowers the ASCII range, which
covers every part number and filename this pipeline compares (CJK
characters have no case). -/
def jsToLower (s : String) : String := String.mk (s.data.map Char.toLower)

/-- JS `s.startsWith(pre)`. -/
def jsStartsWith (s pre : String) : Bool := pre.data.isPrefixOf s.data

/-- JS `s.endsWith(suffix)`. -/
def jsEndsWith (s sfx : String) : Bool := sfx.data.isSuffixOf s.data

/-- JS `s.trim()`: strip leading and trailing whitespace. -/
def jsTrim (s : String) : String :=
  String.mk (((s.data.dropWhile Char.isWhitespace).reverse.dropWhile
    Char.isWhitespace).reverse)

/-- JS `s.split(":")`. -/
def splitOnColon (s : String) : List String :=
  (go s.data).map String.mk
where
  go : List Char → List (List Char)
    | [] => [[]]
    | c :: rest =>
      if c = ':' then [] :: go rest
      else
        match go rest with
        | [] => [[c]]
        | g :: gs => (c :: g) :: gs

/-- One entry of a `header_detail_row`'s `cells` array.  The builder reads
`col_letter` and `value`; `style_key` is carried but never read. -/
structure LayoutCellSpec where
  col_letter : String
  value : JValue
  style_key : Option String := none

/-- A row object of the parsed `excelLayoutData` array, viewed through the
exact fields the route handler reads (`type`, `text`, `merge_cells`,
`cells`, `headers`, `data`, `height`); `none` models an absent field
(JS `undefined`). -/
structure LayoutItem where
  type : String
  text : Option JValue := none
  merge_cells : Option String := none
  cells : Option (List LayoutCellSpec) := none
  headers : Option (List JValue) := none
  data : Option (List JValue) := none
  height : Option Int := none

/-- One product object of the parsed `quotationData.products` array.
Field names are transliterations of the original keys:
`seqNo`=序号, `partImage`=零件图片, `partName`=零件名, `surface`=表面,
`material`=材质, `quantity`=数量, `unitPrice`=单价, `lineTotal`=合计,
`notes`=备注. -/
structure QProduct where
  seqNo : JValue
  partImage : JValue
  partName : JValue
  surface : JValue
  material : JValue
  quantity : JValue
  unitPrice : JValue
  lineTotal : JValue
  notes : JValue

/-- The `company_info` object of the parsed `quotationData`. -/
structure CompanyInfo where
  party_a : JValue
  contact_a : JValue
  tel_a : JValue
  fax_a : JValue
  email_a : JValue
  address_a : JValue
  party_b : JValue
  contact_b : JValue
  tel_b : JValue
  fax_b : JValue
  email_b : JValue
  address_b : JValue

/-- The parsed `quotationData` object. -/
structure QuotationData where
  quote_number : JValue
  company_info : CompanyInfo
  products : List QProduct
  total_untaxed : JValue
  processing_cycle : JValue
  payment_terms : JValue
  delivery_date : JValue
  acceptance_standard : JValue
  notice : JValue
  signature_date : JValue

/- ----------------------------------------------------------------
   Part-image reconciler (route handler, "Map STP filenames to parts")
   ---------------------------------------------------------------- -/

/-- The reconciliation performed on one layout row:
```
if (item.type === "main_table_data_row" && item.data && item.data.length > 2) {
  const partNum = String(item.data[2] || "").toLowerCase();
  const match = stpNames.find(n => n.startsWith(partNum));
  if (match) item.data[1] = match;
}
```
`stpNames` is the list of uploaded CAD filenames already lower-cased. -/
def reconcileItem (stpNames : List String) (item : LayoutItem) : LayoutItem :=
  if item.type = "main_table_data_row" then
    match item.data with
    | some d =>
      if 2 < d.length then
        let partNum := jsToLower (jsOrEmptyOpt (d.get? 2)).jsToString
        match stpNames.find? (fun n => jsStartsWith n partNum) with
        | some m => { item with data := some (d.set 1 (.str m)) }
        | none => item
      else item
    | none => item
  else item

/-- The reconciliation performed on one quotation product:
```
const partNum = String(p["零件名"] || "").toLowerCase();
const match = stpNames.find(n => n.startsWith(partNum));
if (match) p["零件图片"] = match;
``` -/
def reconcileProduct (stpNames : List String) (p : QProduct) : QProduct :=
  let partNum := jsToLower (jsOr p.partName (.str "")).jsToString
  match stpNames.find? (fun n => jsStartsWith n partNum) with
  | some m => { p with partImage := .str m }
  | none => p

/-- The whole reconciliation step of the POST handler: lower-cases the
uploaded CAD filenames (`stpInfo.map(f => f.name.toLowerCase())`) and
rewrites every layout row and every quotation product. -/
def reconcileAll (stpUploadNames : List String) (layout : List LayoutItem)
    (q : QuotationData) : List LayoutItem × QuotationData :=
  let stpNames := stpUploadNames.map jsToLower
  (layout.map (reconcileItem stpNames),
   { q with products := q.products.map (reconcileProduct stpNames) })

/- ----------------------------------------------------------------
   Document emitters (buildProductionOrder, buildQuotation)
   ---------------------------------------------------------------- -/

/-- An ExcelJS `row.height` value: never assigned (`undefined`), a number,
or `NaN` (JS `Math.max(undefined, n)`). -/
inductive RH where
  | unset
  | num (n : Int)
  | nan
deriving Repr, DecidableEq

/-- JS `row.height || 18`: `undefined`, `NaN` and `0` are falsy. -/
def heightOr18 : RH → Int
  | .unset => 18
  | .nan => 18
  | .num n => if n = 0 then 18 else n

/-- JS `Math.max(row.height, n)`: `Math.max(undefined, n)` and
`Math.max(NaN, n)` are `NaN`. -/
def jsMathMax : RH → Int → RH
  | .unset, _ => .nan
  | .nan, _ => .nan
  | .num m, n => .num (max m n)

/-- The `height` field of a layout item assigned to `row.height`
(`undefined` leaves the height unset). -/
def toRH : Option Int → RH
  | none => .unset
  | some n => .num n

/-- An image buffer, identified by its byte contents. -/
abbrev ImgBuf := List Nat

/-- A mutation performed on the workbook under construction, in program
order.  Cosmetic calls (fonts, alignment) are omitted; `defineColumns`
records the `ws.columns = headers.map(...)` call of the production-order
builder (ExcelJS also seeds row 1 with these header texts). -/
inductive Ev where
  | mergeCells (range : String)
  | setCellAddr (addr : String) (v : JValue)
  | setCellLetter (row : Nat) (colLetter : String) (v : JValue)
  | setRowValues (row : Nat) (vals : List JValue)
  | addImage (anchor : String) (buf : ImgBuf)
  | setHeight (row : Nat) (h : RH)
  | defineColumns (headers : List String) (width : Int)
  | setWidths (widths : List Int)
deriving Repr

/-- The last height assigned to row `r` by an event list (the height the
written workbook ends up with for that row). -/
def lastHeight (evs : List Ev) (r : Nat) : Option RH :=
  (evs.filterMap fun e =>
    match e with
    | .setHeight r' h => if r' = r then some h else none
    | _ => none).getLast?

/-- Whether the event list anchors some image at `anchor`. -/
def hasImageAt (evs : List Ev) (anchor : String) : Bool :=
  evs.any fun e =>
    match e with
    | .addImage a _ => a = anchor
    | _ => false

/-- The 9-column header band of the production order. -/
def poHeaders : List String :=
  ["序号", "产品图片", "产品编号", "产品名称", "规格", "材料", "数量", "加工方式", "工艺要求"]

/-- The events of one iteration of `buildProductionOrder`'s `switch`
(everything before the trailing `row.height = item.height`), for the item
landing on row `r`.  JS `TypeError`s raised by reading a property of
`undefined` (absent field) become `.error`:
```
case "title_row":
  ws.mergeCells(item.merge_cells);
  ws.getCell(item.merge_cells.split(":")[1]).value = item.text;
  break;
case "header_detail_row":
  item.cells.forEach((c) => row.getCell(c.col_letter).value = c.value);
  break;
case "main_table_header_row":
case "main_table_data_row":
  row.values = item.headers || item.data;
  if (item.type === "main_table_data_row" && item.data[1]) {
    const key = item.data[1];
    const img = images[key];
    if (img) {
      const id = wb.addImage({ buffer: img, extension: 'png' });
      ws.addImage(id, `B${row.number}:B${row.number}`);
      row.height = Math.max(row.height || 18, 80);
    }
  }
  break;
```
The row is fresh from `ws.getRow(r++)`, so its height is still `RH.unset`
at the `Math.max` call.  Setting a cell's value to `undefined` (absent
`text`) clears the cell, modelled as `JValue.null`. -/
def buildPOItem (images : List (String × ImgBuf)) (r : Nat) (item : LayoutItem) :
    Except String (List Ev) :=
  if item.type = "title_row" then
    match item.merge_cells with
    | none => .error "TypeError: Cannot read properties of undefined (reading merge_cells range)"
    | some mc =>
      match (splitOnColon mc).get? 1 with
      | none => .error "TypeError: Invalid Address (reading getCell of undefined)"
      | some tgt => .ok [.mergeCells mc, .setCellAddr tgt (item.text.getD .null)]
  else if item.type = "header_detail_row" then
    match item.cells with
    | none => .error "TypeError: Cannot read properties of undefined (reading forEach)"
    | some cs => .ok (cs.map fun c => Ev.setCellLetter r c.col_letter c.value)
  else if item.type = "main_table_header_row" ∨ item.type = "main_table_data_row" then
    let vals :=
      match item.headers with
      | some h => some h
      | none => item.data
    let base := Ev.setRowValues r (vals.getD [])
    if item.type = "main_table_data_row" then
      match item.data with
      | none => .error "TypeError: Cannot read properties of undefined (reading 1)"
      | some d =>
        match d.get? 1 with
        | some v =>
          if v.truthy then
            match images.lookup v.jsToString with
            | some img =>
              .ok [base, .addImage (s!"B{r}:B{r}") img,
                   .setHeight r (.num (max (heightOr18 .unset) 80))]
            | none => .ok [base]
          else .ok [base]
        | none => .ok [base]
    else .ok [base]
  else .ok []

/-- One full loop iteration: the `switch` events followed by the
unconditional `row.height = item.height`. -/
def buildPOItemFull (images : List (String × ImgBuf)) (r : Nat) (item : LayoutItem) :
    Except String (List Ev) :=
  match buildPOItem images r item with
  | .error e => .error e
  | .ok evs => .ok (evs ++ [.setHeight r (toRH item.height)])

/-- The `for (const item of layout)` loop of `buildProductionOrder`,
starting at row `r` (the handler starts with `r = 1`). -/
def buildPORows (images : List (String × ImgBuf)) : Nat → List LayoutItem →
    Except String (List Ev)
  | _, [] => .ok []
  | r, item :: rest =>
    match buildPOItemFull images r item with
    | .error e => .error e
    | .ok evs =>
      match buildPORows images (r + 1) rest with
      | .error e => .error e
      | .ok evs' => .ok (evs ++ evs')

/-- `buildProductionOrder(layout, images)`: sets the 9 columns (width 15,
headers seeding row 1), then runs the loop from row 1. -/
def buildProductionOrder (layout : List LayoutItem) (images : List (String × ImgBuf)) :
    Except String (List Ev) :=
  match buildPORows images 1 layout with
  | .error e => .error e
  | .ok evs => .ok (Ev.defineColumns poHeaders 15 :: evs)

/-- The events of one product row of `buildQuotation`, landing at row `r`:
```
const row = ws.addRow([p["序号"], p["零件图片"], p["零件名"], p["表面"],
                       p["材质"], p["数量"], "", "", p["备注"]]);
const key = product["零件图片"] || product["零件名"];
if (images[key]) {
  const id = workbook.addImage({ buffer: images[key], extension: 'png' });
  ws.addImage(id, `B${row.number}:B${row.number}`);
  row.height = Math.max(row.height, 80);
} else {
  row.height = 18;
}
```
The 单价 and 合计 columns are written as literal `""`.  The row is fresh
from `addRow`, so `row.height` is still `RH.unset` at the `Math.max`. -/
def quoteProductRow (images : List (String × ImgBuf)) (r : Nat) (p : QProduct) :
    List Ev :=
  let base := Ev.setRowValues r
    [p.seqNo, p.partImage, p.partName, p.surface, p.material, p.quantity,
     .str "", .str "", p.notes]
  let key := (jsOr p.partImage p.partName).jsToString
  match images.lookup key with
  | some img =>
    [base, .addImage (s!"B{r}:B{r}") img, .setHeight r (jsMathMax .unset 80)]
  | none => [base, .setHeight r (.num 18)]

/-- The `q.products.forEach` loop of `buildQuotation`: one product row per
product, at consecutive row numbers starting from `r`. -/
def quoteProductsEvs (images : List (String × ImgBuf)) : Nat → List QProduct → List Ev
  | _, [] => []
  | r, p :: rest => quoteProductRow images r p ++ quoteProductsEvs images (r + 1) rest

/-- `buildQuotation(q, images)`.  Row layout of the source, in order:
title (row 1), six company-info rows (rows 2-7), the product-table header
(row 8), one row per product (rows 9..8+n), the totals row, six
informational rows, the signature row, then the column widths.  The
party-A side of the contact/TEL/FAX/E-mail/address rows is emitted as a
bare label and the party-B contact line is the literal `联系人:贾芳`;
`ci.contact_a`..`ci.address_a` and `ci.contact_b` are never read. -/
def buildQuotation (q : QuotationData) (images : List (String × ImgBuf)) : List Ev :=
  let ci := q.company_info
  let n := q.products.length
  let infoRows : List (List JValue) :=
    [[.str ("甲方:" ++ ci.party_a.jsToString), .str "", .str "", .str "",
      .str ("乙方:" ++ ci.party_b.jsToString)],
     [.str "联系人:", .str "", .str "", .str "", .str "联系人:贾芳"],
     [.str "TEL:", .str "", .str "", .str "",
      .str ("TEL:" ++ (jsOr ci.tel_b (.str "")).jsToString)],
     [.str "FAX:", .str "", .str "", .str "",
      .str ("FAX:" ++ (jsOr ci.fax_b (.str "")).jsToString)],
     [.str "E-mail:", .str "", .str "", .str "",
      .str ("E-mail:" ++ (jsOr ci.email_b (.str "")).jsToString)],
     [.str "地址:", .str "", .str "", .str "",
      .str ("地址:" ++ (jsOr ci.address_b (.str "")).jsToString)]]
  let infoEvs := (infoRows.zip (List.range' 2 6)).flatMap fun (vals, r) =>
    [Ev.setRowValues r vals, .mergeCells (s!"A{r}:D{r}"), .mergeCells (s!"E{r}:I{r}"),
     .setHeight r (.num 18)]
  let infoLines : List JValue :=
    [.str "未税 总价：(人民币) ",
     .str "手板加工周期：",
     .str ("付款方式：" ++ (jsOr q.payment_terms (.str "月结30天")).jsToString),
     .str "交货日期：",
     .str ("验收标准：" ++ q.acceptance_standard.jsToString),
     q.notice]
  let infoLineEvs := (infoLines.zip (List.range' (10 + n) 6)).flatMap fun (v, r) =>
    [Ev.setRowValues r [v], .mergeCells (s!"A{r}:I{r}"), .setHeight r (.num 18)]
  [Ev.mergeCells "A1:I1",
   .setCellAddr "A1" (.str ("手板报价 编号: " ++ q.quote_number.jsToString)),
   .setHeight 1 (.num 28)]
  ++ infoEvs
  ++ [Ev.setRowValues 8
        [.str "序号", .str "零件图片", .str "零件名", .str "表面", .str "材质",
         .str "数量", .str "单价", .str "合计", .str "备注"],
      .setHeight 8 (.num 22)]
  ++ quoteProductsEvs images 9 q.products
  ++ [Ev.setRowValues (9 + n)
        [.str "计:", .str "", .str "", .str "", .str "", .str "", .str ""],
      .mergeCells (s!"A{9 + n}:F{9 + n}"), .mergeCells (s!"G{9 + n}:H{9 + n}"),
      .setHeight (9 + n) (.num 18)]
  ++ infoLineEvs
  ++ [Ev.setRowValues (16 + n)
        [.str "", .str "", .str "", .str "", .str "", .str "乙方签名确认", .str "",
         q.signature_date],
      .mergeCells (s!"F{16 + n}:G{16 + n}"), .mergeCells (s!"H{16 + n}:I{16 + n}"),
      .setHeight (16 + n) (.num 20),
      .setWidths [6, 20, 20, 16, 14, 8, 12, 12, 18]]

/-- The POST handler after the two `JSON.parse` calls, for a quotation
record already of the §3 container shape (`QuotationData`: `company_info`
present, `products` an array of field-complete objects — the shape on
which none of `buildQuotation`'s reads can throw): reconcile part
identifiers against the uploaded CAD filenames, then run both emitters.
An exception from `buildProductionOrder` propagates to the handler's
`catch`, which answers with an error response and no artifacts.
Quotation values *outside* that shape are modelled by `buildQuotationV`
below, whose crash paths (`TypeError` on an absent or null
`company_info`, on a non-array `products`, on a null product entry)
reach the same `catch`. -/
def processParsed (stpUploadNames : List String) (images : List (String × ImgBuf))
    (layout : List LayoutItem) (q : QuotationData) :
    Except String (List Ev × List Ev) :=
  let (layout2, q2) := reconcileAll stpUploadNames layout q
  match buildProductionOrder layout2 images with
  | .error e => .error e
  | .ok po => .ok (po, buildQuotation q2 images)

/-- JS property read on a *defined, non-null* receiver: only objects
carry the keys this pipeline reads; a read on a primitive or an array
yields `undefined` (`none`).  Property reads on `undefined`/`null`
receivers throw a `TypeError` and are modelled at their call sites. -/
def jsField : JValue → String → Option JValue
  | .obj fields, k => fields.lookup k
  | _, _ => none

/-- JS template interpolation of a possibly-undefined value:
`undefined` renders as the text `undefined`. -/
def jsToStringU : Option JValue → String
  | some v => v.jsToString
  | none => "undefined"

/-- JS `x || b` where `x` may be `undefined`. -/
def jsOrU : Option JValue → JValue → JValue
  | some v, d => jsOr v d
  | none, d => d

/-- JS `a || b` where both sides may be `undefined`, keeping an
undefined result (`product["零件图片"] || product["零件名"]`). -/
def jsOrOpt : Option JValue → Option JValue → Option JValue
  | some a, b => if a.truthy then some a else b
  | none, b => b

/-- Whether a defined value is JS `null` (property reads on it throw,
just as on `undefined`). -/
def JValue.isNull : JValue → Bool
  | .null => true
  | _ => false

/-- The parsed `quotationData` value viewed through the exact fields
`buildQuotation` reads, with *no* shape assumption: `none` models an
absent field (JS `undefined`), and `company_info` / `products` hold
their raw `JValue` so that the crash shapes (absent or null
`company_info`, non-array `products`, null product entries) are
representable alongside the well-shaped ones. -/
structure QuotationVal where
  quote_number : Option JValue := none
  company_info : Option JValue := none
  products : Option JValue := none
  payment_terms : Option JValue := none
  acceptance_standard : Option JValue := none
  notice : Option JValue := none
  signature_date : Option JValue := none

/-- One product row of `buildQuotation` for a defined, non-null element
`e` of the products array, each column read with JS property semantics:
an absent key reads as `undefined`, which — like `null` — reaches the
sheet as an empty cell (modelled `JValue.null`), and an image key of
`undefined` is looked up as the property name `"undefined"`. -/
def quoteProductRowV (images : List (String × ImgBuf)) (r : Nat) (e : JValue) :
    List Ev :=
  let base := Ev.setRowValues r
    [(jsField e "序号").getD .null, (jsField e "零件图片").getD .null,
     (jsField e "零件名").getD .null, (jsField e "表面").getD .null,
     (jsField e "材质").getD .null, (jsField e "数量").getD .null,
     .str "", .str "", (jsField e "备注").getD .null]
  let key :=
    match jsOrOpt (jsField e "零件图片") (jsField e "零件名") with
    | some v => v.jsToString
    | none => "undefined"
  match images.lookup key with
  | some img =>
    [base, .addImage (s!"B{r}:B{r}") img, .setHeight r (jsMathMax .unset 80)]
  | none => [base, .setHeight r (.num 18)]

/-- The `q.products.forEach` loop over the raw elements of a products
array: a `null` element throws on its first column read. -/
def quoteProductsEvsV (images : List (String × ImgBuf)) :
    Nat → List JValue → Except String (List Ev)
  | _, [] => .ok []
  | r, e :: rest =>
    match e with
    | .null => .error "TypeError: Cannot read properties of null (reading 序号)"
    | _ =>
      match quoteProductsEvsV images (r + 1) rest with
      | .error err => .error err
      | .ok evs => .ok (quoteProductRowV images r e ++ evs)

/-- `buildQuotation(q, images)` over the raw parsed quotation value, with
no shape assumption.  The row layout is exactly that of `buildQuotation`;
in addition the JS crash paths are modelled: `ci.party_a` throws when
`company_info` is absent or `null`, `q.products.forEach` throws when
`products` is not an array, and a `null` product entry throws on its
first column read.  Any such `TypeError` propagates to the POST handler's
`catch`, which answers with an error response and no artifacts. -/
def buildQuotationV (q : QuotationVal) (images : List (String × ImgBuf)) :
    Except String (List Ev) :=
  match q.company_info with
  | none => .error "TypeError: Cannot read properties of undefined (reading party_a)"
  | some ci =>
    if ci.isNull then
      .error "TypeError: Cannot read properties of null (reading party_a)"
    else
      match q.products with
      | some (.arr elems) =>
        match quoteProductsEvsV images 9 elems with
        | .error e => .error e
        | .ok prodEvs =>
          let n := elems.length
          let infoRows : List (List JValue) :=
            [[.str ("甲方:" ++ jsToStringU (jsField ci "party_a")), .str "", .str "",
              .str "", .str ("乙方:" ++ jsToStringU (jsField ci "party_b"))],
             [.str "联系人:", .str "", .str "", .str "", .str "联系人:贾芳"],
             [.str "TEL:", .str "", .str "", .str "",
              .str ("TEL:" ++ (jsOrU (jsField ci "tel_b") (.str "")).jsToString)],
             [.str "FAX:", .str "", .str "", .str "",
              .str ("FAX:" ++ (jsOrU (jsField ci "fax_b") (.str "")).jsToString)],
             [.str "E-mail:", .str "", .str "", .str "",
              .str ("E-mail:" ++ (jsOrU (jsField ci "email_b") (.str "")).jsToString)],
             [.str "地址:", .str "", .str "", .str "",
              .str ("地址:" ++ (jsOrU (jsField ci "address_b") (.str "")).jsToString)]]
          let infoEvs := (infoRows.zip (List.range' 2 6)).flatMap fun (vals, r) =>
            [Ev.setRowValues r vals, .mergeCells (s!"A{r}:D{r}"),
             .mergeCells (s!"E{r}:I{r}"), .setHeight r (.num 18)]
          let infoLines : List JValue :=
            [.str "未税 总价：(人民币) ",
             .str "手板加工周期：",
             .str ("付款方式：" ++ (jsOrU q.payment_terms (.str "月结30天")).jsToString),
             .str "交货日期：",
             .str ("验收标准：" ++ jsToStringU q.acceptance_standard),
             q.notice.getD .null]
          let infoLineEvs := (infoLines.zip (List.range' (10 + n) 6)).flatMap fun (v, r) =>
            [Ev.setRowValues r [v], .mergeCells (s!"A{r}:I{r}"), .setHeight r (.num 18)]
          .ok ([Ev.mergeCells "A1:I1",
            .setCellAddr "A1" (.str ("手板报价 编号: " ++ jsToStringU q.quote_number)),
            .setHeight 1 (.num 28)]
            ++ infoEvs
            ++ [Ev.setRowValues 8
                  [.str "序号", .str "零件图片", .str "零件名", .str "表面", .str "材质",
                   .str "数量", .str "单价", .str "合计", .str "备注"],
                .setHeight 8 (.num 22)]
            ++ prodEvs
            ++ [Ev.setRowValues (9 + n)
                  [.str "计:", .str "", .str "", .str "", .str "", .str "", .str ""],
                .mergeCells (s!"A{9 + n}:F{9 + n}"), .mergeCells (s!"G{9 + n}:H{9 + n}"),
                .setHeight (9 + n) (.num 18)]
            ++ infoLineEvs
            ++ [Ev.setRowValues (16 + n)
                  [.str "", .str "", .str "", .str "", .str "", .str "乙方签名确认",
                   .str "", q.signature_date.getD .null],
                .mergeCells (s!"F{16 + n}:G{16 + n}"), .mergeCells (s!"H{16 + n}:I{16 + n}"),
                .setHeight (16 + n) (.num 20),
                .setWidths [6, 20, 20, 16, 14, 8, 12, 12, 18]])
      | _ => .error "TypeError: q.products.forEach is not a function"

/-- Whether an optional raw value is a JS array (the only parsed value
carrying `forEach`). -/
def isArrOpt : Option JValue → Bool
  | some (.arr _) => true
  | _ => false

/- ----------------------------------------------------------------
   STP rendering (renderStpFiles)
   ---------------------------------------------------------------- -/

/-- An uploaded CAD file as the handler stages it (`{ path, name }`). -/
structure StpFile where
  path : String
  name : String
deriving Repr, DecidableEq

/-- One entry of the ZIP archive answered by the Python renderer. -/
structure ZipEntry where
  name : String
  isDir : Bool
  content : ImgBuf
deriving Repr, DecidableEq

/-- The outcome of one renderer round-trip for one file: a non-success
HTTP status (`if (!res.ok) continue`), an exception anywhere in the
per-file `try` body (file read, fetch, ZIP decoding — swallowed by the
`catch`), or a successfully decoded archive. -/
inductive RenderResult where
  | httpFail
  | thrown
  | okZip (entries : List ZipEntry)

/-- JS object insertion `map[k] = v`: an existing key keeps its position
and gets the new value, a new key is appended. -/
def objSet (m : List (String × ImgBuf)) (k : String) (v : ImgBuf) :
    List (String × ImgBuf) :=
  if m.any (fun p => p.1 = k) then
    m.map fun p => if p.1 = k then (k, v) else p
  else m ++ [(k, v)]

/-- The test `/\.(png|jpe?g)$/i.test(n)` on a ZIP entry name. -/
def isImageName (n : String) : Bool :=
  let l := jsToLower n
  jsEndsWith l ".png" || jsEndsWith l ".jpg" || jsEndsWith l ".jpeg"

/-- The body of `renderStpFiles`' loop for one file, threading the map:
a failed round-trip contributes nothing; a decoded archive contributes
its first non-directory png/jpg/jpeg entry under the file's name. -/
def renderStep (render : StpFile → RenderResult) (m : List (String × ImgBuf))
    (f : StpFile) : List (String × ImgBuf) :=
  match render f with
  | .httpFail => m
  | .thrown => m
  | .okZip entries =>
    match entries.find? (fun e => !e.isDir && isImageName e.name) with
    | some e => objSet m f.name e.content
    | none => m

/-- `renderStpFiles(files)` with the renderer round-trip abstracted as the
oracle `render`.  `configured = false` models an unset
`PYTHON_RENDERER_URL` (the function returns the empty map at once). -/
def renderStpFiles (configured : Bool) (render : StpFile → RenderResult)
    (files : List StpFile) : List (String × ImgBuf) :=
  if !configured then []
  else files.foldl (renderStep render) []

/- ----------------------------------------------------------------
   Tabular normalizer (parseExcelToText), per sheet
   ---------------------------------------------------------------- -/

/-- The value of one worksheet cell as the scanner sees it: `absent`
covers `null`/`undefined`/`''` (the `cell.value !== null && !== undefined
&& !== ''` test fails); `val s` covers any other value, with `s` the
display text the type dispatch flattens it to (plain string/number,
`text`, `String(result)`, joined `richText`, or `` `FORMULA: ${expr}` ``). -/
inductive CellVal where
  | absent
  | val (display : String)

/-- A worksheet, addressed by (row, column), both 1-based.  ExcelJS
`getRow`/`getCell` are total: unset cells read as `absent`. -/
def Sheet := Nat → Nat → CellVal

/-- The scan ceiling: `const maxRow = 200`. -/
def maxRowScan : Nat := 200

/-- The scan ceiling: `const maxCol = 50`. -/
def maxColScan : Nat := 50

/-- The cells of row `r` that the scanner emits into the transcript:
columns 1..50 whose value is defined and whose display text is non-blank
after trimming; emitted as (column, trimmed text). -/
def rowCellsEmitted (sheet : Sheet) (r : Nat) : List (Nat × String) :=
  (List.range' 1 maxColScan).filterMap fun c =>
    match sheet r c with
    | .absent => none
    | .val s => if jsTrim s ≠ "" then some (c, jsTrim s) else none

/-- The emptiness test of the lookahead loop, which checks only
`checkCell.value !== null && !== undefined && !== ''` (no trimming):
whether row `r` has any defined cell in columns 1..50. -/
def rowHasValue (sheet : Sheet) (r : Nat) : Bool :=
  (List.range' 1 maxColScan).any fun c =>
    match sheet r c with
    | .absent => false
    | .val _ => true

/-- The lookahead of the early-termination check: starting at `start`,
count consecutive rows with no defined cell, stopping at the first row
with data, after `k` rows, or past row 200 (`checkRow <= rowNum + 10 &&
checkRow <= maxRow`). -/
def lookaheadEmpty (sheet : Sheet) : Nat → Nat → Nat
  | _, 0 => 0
  | start, k + 1 =>
    if start > maxRowScan then 0
    else if rowHasValue sheet start then 0
    else 1 + lookaheadEmpty sheet (start + 1) k

/-- The per-sheet row scan of `parseExcelToText`, from row `r` with
`hasAnyData = hasAny`, returning the emitted transcript rows in order
(row number with its emitted cells).  Once data has been seen, an empty
row whose next 10 rows are also empty breaks the scan. -/
def scanRows (sheet : Sheet) : Nat → Nat → Bool → List (Nat × List (Nat × String))
  | 0, _, _ => []
  | fuel + 1, r, hasAny =>
    if r > maxRowScan then []
    else
      let cells := rowCellsEmitted sheet r
      if cells.isEmpty then
        if hasAny && decide (10 ≤ lookaheadEmpty sheet (r + 1) 10) then []
        else scanRows sheet fuel (r + 1) hasAny
      else (r, cells) :: scanRows sheet fuel (r + 1) true

/-- The scan of one sheet: rows 1..200 (the structured content of the
transcript; the surrounding banner/merge text is a fixed rendering of
this list). -/
def parseSheet (sheet : Sheet) : List (Nat × List (Nat × String)) :=
  scanRows sheet maxRowScan 1 false

/- ----------------------------------------------------------------
   Structure extractor / repair parser (extractStructures)
   ---------------------------------------------------------------- -/

/-- The apostrophe character `'`. -/
def aposChar : Char := Char.ofNat 39

/-- The backtick character. -/
def tickChar : Char := Char.ofNat 96

/-- The opening-brace character of an object literal. -/
def lbraceChar : Char := Char.ofNat 123

/-- The closing-brace character of an object literal. -/
def rbraceChar : Char := Char.ofNat 125

mutual

/-- `clean`'s first pass, `.replace(/\/\/.*$/gm, '')`: delete from each
`//` to the end of its line (the newline itself survives). -/
def stripLineComments : List Char → List Char
  | [] => []
  | '/' :: '/' :: rest => dropToEol rest
  | c :: rest => c :: stripLineComments rest
termination_by structural l => l

/-- Skip the remainder of a line opened by `//`. -/
def dropToEol : List Char → List Char
  | [] => []
  | '\n' :: rest => '\n' :: stripLineComments rest
  | _ :: rest => dropToEol rest
termination_by structural l => l

end

/-- `clean`'s second pass, `.replace(/'/g, '"')`: every apostrophe becomes
a double quote — including apostrophes inside already-double-quoted
strings. -/
def quotePass (l : List Char) : List Char :=
  l.map fun c => if c = aposChar then '"' else c

/-- Lookahead for the trailing-comma pass: after a `,`, skip whitespace
and stop at a closing `]`/`}` (the regex `,\s*([\]}])`), returning the
bracket and the rest; `none` if something else intervenes. -/
def wsThenBracket : List Char → Option (Char × List Char)
  | [] => none
  | c :: rest =>
    if c = ']' ∨ c = rbraceChar then some (c, rest)
    else if c.isWhitespace then wsThenBracket rest
    else none

theorem wsThenBracket_length {l : List Char} {b : Char} {rest : List Char}
    (h : wsThenBracket l = some (b, rest)) : rest.length < l.length := by
  induction l with
  | nil => simp [wsThenBracket] at h
  | cons c cs ih =>
    simp only [wsThenBracket] at h
    split at h
    · simp only [Option.some.injEq, Prod.mk.injEq] at h
      obtain ⟨-, rfl⟩ := h
      simp only [List.length_cons]
      omega
    · split at h
      · have h2 := ih h
        simp only [List.length_cons]
        omega
      · simp at h

/-- `clean`'s third pass, `.replace(/,\s*([\]}])/g, '$1')`, with `fuel`
making the recursion structural (one unit per emitted character;
`commaPass` supplies `fuel = length`, always enough since every step
consumes at least one input character). -/
def commaPassGo : Nat → List Char → List Char
  | 0, l => l
  | fuel + 1, l =>
    match l with
    | [] => []
    | c :: rest =>
      if c = ',' then
        match wsThenBracket rest with
        | some (b, rest') => b :: commaPassGo fuel rest'
        | none => ',' :: commaPassGo fuel rest
      else c :: commaPassGo fuel rest
termination_by structural fuel => fuel

/-- `clean`'s third pass: delete a comma that is followed (up to
whitespace) by a closing bracket; scanning resumes after the bracket, as
the regex engine does. -/
def commaPass (l : List Char) : List Char := commaPassGo l.length l

/-- `clean`'s fourth pass, `` .replace(/[;`]/g, '') ``: delete every
semicolon and backtick, wherever it occurs. -/
def semiTickPass (l : List Char) : List Char :=
  l.filter fun c => ¬(c = ';' ∨ c = tickChar)

/-- The `clean` repair pass applied to each located literal:
```
const clean = (jsStr) =>
  jsStr.replace(/\/\/.*$/gm, '').replace(/'/g, '"')
       .replace(/,\s*([\]}])/g, '$1').replace(/[;`]/g, '').trim();
``` -/
def clean (s : String) : String :=
  jsTrim (String.mk (semiTickPass (commaPass (quotePass (stripLineComments s.data)))))

/-- The length of the optional language tag after a code-fence opener
(the regex alternatives `javascript`, `js`, `python`, tried in order). -/
def langTagLen (l : List Char) : Nat :=
  if "javascript".data.isPrefixOf l then 10
  else if "js".data.isPrefixOf l then 2
  else if "python".data.isPrefixOf l then 6
  else 0

/-- The fence strip `txt.replace(/```(?:javascript|js|python)?|```/g, '')`,
with `fuel` making the recursion structural (`fencePass` supplies
`fuel = length`, always enough since every step consumes at least one
input character): every triple-backtick, together with an immediately
following language tag, is deleted. -/
def fencePassGo : Nat → List Char → List Char
  | 0, l => l
  | fuel + 1, l =>
    match l with
    | a :: b :: c :: rest =>
      if a = tickChar ∧ b = tickChar ∧ c = tickChar then
        fencePassGo fuel (rest.drop (langTagLen rest))
      else a :: fencePassGo fuel (b :: c :: rest)
    | l => l
termination_by structural fuel => fuel

/-- The fence strip applied to the whole model text. -/
def fencePass (l : List Char) : List Char := fencePassGo l.length l

/-- Match a literal character sequence at the head of the input, returning
the rest. -/
def matchPrefix : List Char → List Char → Option (List Char)
  | [], l => some l
  | _ :: _, [] => none
  | p :: ps, c :: cs => if p = c then matchPrefix ps cs else none

/-- Skip `\s*`. -/
def skipWsChars : List Char → List Char
  | [] => []
  | c :: rest => if c.isWhitespace then skipWsChars rest else c :: rest

/-- Match `\s+`: at least one whitespace character, then any more. -/
def ws1 : List Char → Option (List Char)
  | [] => none
  | c :: rest => if c.isWhitespace then some (skipWsChars rest) else none

/-- The non-greedy tail of the literal capture `[\s\S]*?` up to the first
closing bracket that is immediately followed by `;`; returns the captured
characters including that bracket. -/
def upToCloseSemi (close : Char) : List Char → Option (List Char)
  | [] => none
  | c :: rest =>
    if c = close ∧ rest.head? = some ';' then some [c]
    else
      match upToCloseSemi close rest with
      | some tl => some (c :: tl)
      | none => none

/-- Try to match `const\s+<name>\s*=\s*(<ob>[\s\S]*?<cb>);` at the very
start of `l`, returning the captured literal. -/
def tryStructAt (name : List Char) (ob cb : Char) (l : List Char) :
    Option (List Char) :=
  match matchPrefix "const".data l with
  | none => none
  | some r1 =>
    match ws1 r1 with
    | none => none
    | some r2 =>
      match matchPrefix name r2 with
      | none => none
      | some r3 =>
        match matchPrefix ['='] (skipWsChars r3) with
        | none => none
        | some r5 =>
          match matchPrefix [ob] (skipWsChars r5) with
          | none => none
          | some r7 =>
            match upToCloseSemi cb r7 with
            | some body => some (ob :: body)
            | none => none

/-- The leftmost match of the structure pattern in `l` (what
`txt.match(...)` returns): the first start position whose `tryStructAt`
succeeds. -/
def findStruct (name : List Char) (ob cb : Char) : List Char → Option (List Char)
  | [] => none
  | c :: rest =>
    match tryStructAt name ob cb (c :: rest) with
    | some m => some m
    | none => findStruct name ob cb rest

/-- `extractStructures(txt)`: strip code fences, locate the two named
literals, and return both repaired; throw the fixed extraction error if
either is missing. -/
def extractStructures (txt : String) : Except String (String × String) :=
  let t := fencePass txt.data
  match findStruct "excelLayoutData".data '[' ']' t,
        findStruct "quotationData".data lbraceChar rbraceChar t with
  | some a, some o => .ok (clean (String.mk a), clean (String.mk o))
  | _, _ => .error "Failed to extract required data structures from Gemini output."

/- ----------------------------------------------------------------
   JSON.parse model
   ---------------------------------------------------------------- -/

/-- The JSON whitespace characters. -/
def jsonWs (c : Char) : Bool :=
  c = ' ' ∨ c = '\t' ∨ c = '\n' ∨ c = '\r'

/-- Skip JSON whitespace. -/
def skipJWs : List Char → List Char
  | [] => []
  | c :: rest => if jsonWs c then skipJWs rest else c :: rest

/-- The value of a hexadecimal digit. -/
def hexVal (c : Char) : Option Nat :=
  if '0' ≤ c ∧ c ≤ '9' then some (c.toNat - '0'.toNat)
  else if 'a' ≤ c ∧ c ≤ 'f' then some (c.toNat - 'a'.toNat + 10)
  else if 'A' ≤ c ∧ c ≤ 'F' then some (c.toNat - 'A'.toNat + 10)
  else none

/-- The single-character JSON string escapes. -/
def escChar (c : Char) : Option Char :=
  if c = '"' then some '"'
  else if c = '\\' then some '\\'
  else if c = '/' then some '/'
  else if c = 'b' then some (Char.ofNat 8)
  else if c = 'f' then some (Char.ofNat 12)
  else if c = 'n' then some '\n'
  else if c = 'r' then some '\r'
  else if c = 't' then some '\t'
  else none

/-- Parse the remainder of a JSON string after its opening quote:
the content characters and the input following the closing quote. -/
def parseStrRest : List Char → Option (List Char × List Char)
  | [] => none
  | c :: rest =>
    if c = '"' then some ([], rest)
    else if c = '\\' then
      match rest with
      | [] => none
      | e :: rest2 =>
        if e = 'u' then
          match rest2 with
          | h1 :: h2 :: h3 :: h4 :: rest3 =>
            match hexVal h1, hexVal h2, hexVal h3, hexVal h4 with
            | some a, some b, some c2, some d =>
              match parseStrRest rest3 with
              | some (tl, rem) =>
                some (Char.ofNat (((a * 16 + b) * 16 + c2) * 16 + d) :: tl, rem)
              | none => none
            | _, _, _, _ => none
          | _ => none
        else
          match escChar e with
          | some ec =>
            match parseStrRest rest2 with
            | some (tl, rem) => some (ec :: tl, rem)
            | none => none
          | none => none
    else
      match parseStrRest rest with
      | some (tl, rem) => some (c :: tl, rem)
      | none => none
termination_by structural l => l

/-- Parse a run of decimal digits (at least one). -/
def parseDigits : List Char → Option (Nat × List Char)
  | [] => none
  | c :: rest =>
    if c.isDigit then
      match parseDigits rest with
      | some (n, rem) => some (n, rem)
      | none => some (c.toNat - '0'.toNat, rest)
    else none

/-- The numeric value of a digit run (left fold). -/
def digitsVal : List Char → Nat → Nat
  | [], acc => acc
  | c :: rest, acc => digitsVal rest (acc * 10 + (c.toNat - '0'.toNat))

/-- Take the leading digits of the input. -/
def takeDigits : List Char → List Char × List Char
  | [] => ([], [])
  | c :: rest =>
    if c.isDigit then
      let (ds, rem) := takeDigits rest
      (c :: ds, rem)
    else ([], c :: rest)

/-- Parse a JSON number.  Only the integral numbers this pipeline's data
carries are modelled: an optional minus sign and a digit run, rejected if
a fraction or exponent follows. -/
def parseJNum (l : List Char) : Option (Int × List Char) :=
  let (neg, l2) :=
    match l with
    | '-' :: rest => (true, rest)
    | _ => (false, l)
  match takeDigits l2 with
  | ([], _) => none
  | (ds, rem) =>
    match rem with
    | '.' :: _ => none
    | 'e' :: _ => none
    | 'E' :: _ => none
    | _ =>
      let v : Int := Int.ofNat (digitsVal ds 0)
      some (if neg then -v else v, rem)

mutual

/-- Parse one JSON value (after skipping leading whitespace), with `fuel`
bounding the recursion depth. -/
def parseJVal : Nat → List Char → Option (JValue × List Char)
  | 0, _ => none
  | fuel + 1, l =>
    match skipJWs l with
    | [] => none
    | c :: rest =>
      if c = '"' then
        match parseStrRest rest with
        | some (cs, rem) => some (.str (String.mk cs), rem)
        | none => none
      else if c = '[' then
        match skipJWs rest with
        | ']' :: r2 => some (.arr [], r2)
        | r2 =>
          match parseJItems fuel r2 with
          | some (vs, rem) => some (.arr vs, rem)
          | none => none
      else if c = lbraceChar then
        match skipJWs rest with
        | b :: r2 =>
          if b = rbraceChar then some (.obj [], r2)
          else
            match parseJFields fuel (b :: r2) with
            | some (fs, rem) => some (.obj fs, rem)
            | none => none
        | [] => none
      else if c = 't' then
        match matchPrefix "rue".data rest with
        | some rem => some (.bool true, rem)
        | none => none
      else if c = 'f' then
        match matchPrefix "alse".data rest with
        | some rem => some (.bool false, rem)
        | none => none
      else if c = 'n' then
        match matchPrefix "ull".data rest with
        | some rem => some (.null, rem)
        | none => none
      else
        match parseJNum (c :: rest) with
        | some (n, rem) => some (.num n, rem)
        | none => none
termination_by structural fuel => fuel

/-- Parse the comma-separated items of a non-empty JSON array, consuming
the closing bracket. -/
def parseJItems : Nat → List Char → Option (List JValue × List Char)
  | 0, _ => none
  | fuel + 1, l =>
    match parseJVal fuel l with
    | none => none
    | some (v, rem) =>
      match skipJWs rem with
      | ',' :: r2 =>
        match parseJItems fuel r2 with
        | some (vs, rem2) => some (v :: vs, rem2)
        | none => none
      | ']' :: r2 => some ([v], r2)
      | _ => none
termination_by structural fuel => fuel

/-- Parse the fields of a non-empty JSON object, consuming the closing
brace. -/
def parseJFields : Nat → List Char → Option (List (String × JValue) × List Char)
  | 0, _ => none
  | fuel + 1, l =>
    match skipJWs l with
    | '"' :: r1 =>
      match parseStrRest r1 with
      | none => none
      | some (key, r2) =>
        match skipJWs r2 with
        | ':' :: r3 =>
          match parseJVal fuel r3 with
          | none => none
          | some (v, rem) =>
            match skipJWs rem with
            | ',' :: r4 =>
              match parseJFields fuel r4 with
              | some (fs, rem2) => some ((String.mk key, v) :: fs, rem2)
              | none => none
            | b :: r4 =>
              if b = rbraceChar then some ([(String.mk key, v)], r4)
              else none
            | [] => none
        | _ => none
    | _ => none
termination_by structural fuel => fuel

end

/-- The model of `JSON.parse(s)`: parse one value and require only
whitespace to remain. -/
def jsonParse (s : String) : Option JValue :=
  match parseJVal (2 * s.length + 4) s.data with
  | some (v, rem) => if (skipJWs rem).isEmpty then some v else none
  | none => none

/-- `JSON.parse` as the route handler sees it: a failed parse throws a
`SyntaxError` (its exact engine-dependent wording is modelled by one
fixed message). -/
def jsonParseE (s : String) : Except String JValue :=
  match jsonParse s with
  | some v => .ok v
  | none => .error "SyntaxError: JSON parse error"

/-- The extraction-and-parse prefix of the POST handler's `try` block:
```
const [arrJS, objJS] = extractStructures(rawOutput);
const layout = JSON.parse(arrJS);
const quotation = JSON.parse(objJS);
``` -/
def extractAndParse (txt : String) : Except String (JValue × JValue) :=
  match extractStructures txt with
  | .error e => .error e
  | .ok (a, o) =>
    match jsonParseE a with
    | .error e => .error e
    | .ok la =>
      match jsonParseE o with
      | .error e => .error e
      | .ok qo => .ok (la, qo)

/- ----------------------------------------------------------------
   Theorems
   ---------------------------------------------------------------- -/

theorem find?_first_spec {α : Type} {p : α → Bool} {l : List α} {a : α}
    (h : l.find? p = some a) :
    ∃ i : Fin l.length, l.get i = a ∧ p a = true ∧
      ∀ j : Fin l.length, j.val < i.val → p (l.get j) = false := by
  induction l with
  | nil => simp at h
  | cons x xs ih =>
    by_cases hp : p x = true
    · rw [List.find?_cons_of_pos _ hp] at h
      obtain rfl : x = a := by simpa using h
      refine ⟨⟨0, by simp⟩, rfl, hp, ?_⟩
      intro j hj
      simp at hj
    · rw [List.find?_cons_of_neg _ hp] at h
      obtain ⟨i, hget, hpa, hprev⟩ := ih h
      refine ⟨⟨i.val + 1, by simp⟩, ?_, hpa, ?_⟩
      · simpa using hget
      · intro j hj
        obtain ⟨jv, hjlt⟩ := j
        cases jv with
        | zero =>
          simpa using Bool.not_eq_true _ |>.mp hp
        | succ k =>
          have hk : k < i.val := by simpa using hj
          simpa using hprev ⟨k, by simpa using hjlt⟩ hk

/-- The part identifier a layout data row is matched by:
`String(item.data[2] || "").toLowerCase()`. -/
def partNumOfData (d : List JValue) : String :=
  jsToLower (jsOrEmptyOpt (d.get? 2)).jsToString

/-- The part identifier a quotation product is matched by:
`String(p["零件名"] || "").toLowerCase()`. -/
def partNumOfProduct (p : QProduct) : String :=
  jsToLower (jsOr p.partName (.str "")).jsToString

/-- The claim's concrete example: uploaded CAD filenames. -/
def c1uploads : List String := ["p100-rev2.png", "p200.png"]

/-- The claim's concrete example: a production-order data row whose part
number (data index 2) is `"P100"`. -/
def c1data : List JValue :=
  [.num 1, .str "", .str "P100", .str "bracket", .str "", .str "alu",
   .num 5, .str "", .str ""]

/-- The layout row carrying `c1data`. -/
def c1row : LayoutItem :=
  { type := "main_table_data_row", data := some c1data, height := some 22 }

/-- The claim's concrete example on the quotation side: a product whose
part name (零件名) is `"P100"`. -/
def c1prod : QProduct :=
  ⟨.num 1, .str "[图片]", .str "P100", .str "", .str "", .str "",
   .str "", .str "", .str ""⟩

/-- A data row whose part number matches none of `c1uploads`. -/
def c1dataNM : List JValue :=
  [.num 1, .str "keep-me", .str "ZZZ-9", .str "", .str "", .str "",
   .num 1, .str "", .str ""]

/-- The layout row carrying `c1dataNM`. -/
def c1rowNM : LayoutItem :=
  { type := "main_table_data_row", data := some c1dataNM, height := some 22 }

/-- C1: for every production-order `main_table_data_row` (with its data
array present and longer than 2) and every quotation product line, the
part number (data index 2) resp. part name (零件名) is lower-cased and
compared, via `startsWith`, against the lower-cased uploaded CAD
filenames in enumeration order; the first filename having it as a prefix
overwrites the image slot (data index 1 resp. 零件图片), and with no
matching filename the row is left exactly as extracted.  In particular
`"P100"` against `["p100-rev2.png", "p200.png"]` resolves to
`"p100-rev2.png"` in both documents. -/
theorem C1_reconciler_prefix_match (uploads : List String) (item : LayoutItem)
    (d : List JValue) (p : QProduct) (names : List String)
    (hname : names = uploads.map jsToLower)
    (htype : item.type = "main_table_data_row") (hdata : item.data = some d)
    (hlen : 2 < d.length) :
    ((∃ n ∈ names, jsStartsWith n (partNumOfData d) = true) →
      ∃ i : Fin names.length,
        jsStartsWith (names.get i) (partNumOfData d) = true ∧
        (∀ j : Fin names.length, j.val < i.val →
          jsStartsWith (names.get j) (partNumOfData d) = false) ∧
        reconcileItem names item =
          { item with data := some (d.set 1 (.str (names.get i))) }) ∧
    ((∀ n ∈ names, jsStartsWith n (partNumOfData d) = false) →
      reconcileItem names item = item) ∧
    ((∃ n ∈ names, jsStartsWith n (partNumOfProduct p) = true) →
      ∃ i : Fin names.length,
        jsStartsWith (names.get i) (partNumOfProduct p) = true ∧
        (∀ j : Fin names.length, j.val < i.val →
          jsStartsWith (names.get j) (partNumOfProduct p) = false) ∧
        reconcileProduct names p = { p with partImage := .str (names.get i) }) ∧
    ((∀ n ∈ names, jsStartsWith n (partNumOfProduct p) = false) →
      reconcileProduct names p = p) ∧
    ((reconcileItem (c1uploads.map jsToLower) c1row).data =
        some (c1data.set 1 (.str "p100-rev2.png")) ∧
      (reconcileProduct (c1uploads.map jsToLower) c1prod).partImage =
        .str "p100-rev2.png") := by
  subst hname
  refine ⟨?_, ?_, ?_, ?_, ?_, ?_⟩
  · intro hex
    cases hfind : (uploads.map jsToLower).find?
        (fun n => jsStartsWith n (partNumOfData d)) with
    | none =>
      rw [List.find?_eq_none] at hfind
      obtain ⟨n, hn, hsw⟩ := hex
      exact absurd hsw (by simpa using hfind n hn)
    | some m =>
      obtain ⟨i, hget, hpa, hprev⟩ := find?_first_spec hfind
      refine ⟨i, by rw [hget]; exact hpa, fun j hj => hprev j hj, ?_⟩
      have hfind2 := hfind
      simp only [partNumOfData] at hfind2
      rw [← hget] at hfind2
      simp only [reconcileItem, htype, hdata, if_pos hlen, hfind2,
        eq_self_iff_true, if_true]
  · intro hno
    have hfind : (uploads.map jsToLower).find?
        (fun n => jsStartsWith n (partNumOfData d)) = none := by
      rw [List.find?_eq_none]
      intro x hx
      simp [hno x hx]
    simp only [partNumOfData] at hfind
    simp only [reconcileItem, htype, hdata, if_pos hlen, hfind,
      eq_self_iff_true, if_true]
  · intro hex
    cases hfind : (uploads.map jsToLower).find?
        (fun n => jsStartsWith n (partNumOfProduct p)) with
    | none =>
      rw [List.find?_eq_none] at hfind
      obtain ⟨n, hn, hsw⟩ := hex
      exact absurd hsw (by simpa using hfind n hn)
    | some m =>
      obtain ⟨i, hget, hpa, hprev⟩ := find?_first_spec hfind
      refine ⟨i, by rw [hget]; exact hpa, fun j hj => hprev j hj, ?_⟩
      have hfind2 := hfind
      simp only [partNumOfProduct] at hfind2
      rw [← hget] at hfind2
      simp only [reconcileProduct, hfind2]
  · intro hno
    have hfind : (uploads.map jsToLower).find?
        (fun n => jsStartsWith n (partNumOfProduct p)) = none := by
      rw [List.find?_eq_none]
      intro x hx
      simp [hno x hx]
    simp only [partNumOfProduct] at hfind
    simp only [reconcileProduct, hfind]
  · exact rfl
  · exact rfl

theorem C1_reconciler_prefix_match_witness :
    reconcileItem (c1uploads.map jsToLower) c1rowNM = c1rowNM :=
  (C1_reconciler_prefix_match c1uploads c1rowNM c1dataNM c1prod
    (c1uploads.map jsToLower) rfl rfl rfl (by decide)).2.1 (by decide)

/-- The image-slot entry (data index 1) of a layout row, when it is a
string. -/
def dataSlot1Str (item : LayoutItem) : Option String :=
  match item.data with
  | some d =>
    match d.get? 1 with
    | some (.str s) => some s
    | _ => none
  | none => none

/-- A data row whose part-number entry (data index 2) is missing: the
data array has only two entries. -/
def c9row : LayoutItem :=
  { type := "main_table_data_row", data := some [.num 1, .str "PLACEHOLDER"] }

/-- A data row whose part-number entry is present but empty. -/
def c9data : List JValue := [.num 1, .str "KEEP", .str ""]

/-- The layout row carrying `c9data`. -/
def c9rowEmpty : LayoutItem :=
  { type := "main_table_data_row", data := some c9data }

/-- A quotation product with an empty part name. -/
def c9prod : QProduct :=
  ⟨.num 1, .str "[图片]", .str "", .str "", .str "", .str "", .str "", .str "", .str ""⟩

/-- Every string has the empty string as a prefix. -/
theorem jsStartsWith_empty (n : String) : jsStartsWith n "" = true := by
  show List.isPrefixOf [] n.data = true
  cases n.data <;> rfl

/-- C9 counterexample: a `main_table_data_row` whose part-number entry is
missing because its data array has only 2 entries is skipped by the
`item.data.length > 2` guard, so with one uploaded CAD file the image
slot keeps its extracted value instead of being overwritten by the first
filename, contradicting the claim that the placeholder is never retained
in this case. -/
theorem C9_counterexample :
    dataSlot1Str (reconcileItem (["A1-bracket.stp"].map jsToLower) c9row) =
      some "PLACEHOLDER" ∧
    ("PLACEHOLDER" : String) ≠ "a1-bracket.stp" :=
  ⟨rfl, by decide⟩

/-- C9 amended: when the part identifier is the *empty string* (empty or
null part-number entry at data index 2 of an at-least-3-entry data array,
resp. empty or missing 零件名) and at least one CAD file was uploaded,
the image slot is overwritten with the first filename, since every
filename starts with the empty prefix.  However a layout row whose data
array has at most 2 entries (part-number entry missing entirely), or no
data array at all, is skipped by the reconciler and keeps its extracted
image slot. -/
theorem C9_empty_part_amended (names : List String) (item : LayoutItem)
    (d : List JValue) (p : QProduct) (n0 : String) (rest : List String) :
    (names = n0 :: rest → item.type = "main_table_data_row" →
      item.data = some d → 2 < d.length → partNumOfData d = "" →
      reconcileItem names item = { item with data := some (d.set 1 (.str n0)) }) ∧
    (names = n0 :: rest → partNumOfProduct p = "" →
      reconcileProduct names p = { p with partImage := .str n0 }) ∧
    (item.type = "main_table_data_row" → item.data = some d → d.length ≤ 2 →
      reconcileItem names item = item) ∧
    (item.type = "main_table_data_row" → item.data = none →
      reconcileItem names item = item) := by
  refine ⟨?_, ?_, ?_, ?_⟩
  · intro hnames htype hdata hlen hpn
    subst hnames
    simp only [partNumOfData] at hpn
    have hfind : (n0 :: rest).find?
        (fun n => jsStartsWith n (jsToLower (jsOrEmptyOpt (d.get? 2)).jsToString)) =
        some n0 := by
      apply List.find?_cons_of_pos
      rw [hpn]
      exact jsStartsWith_empty n0
    simp only [reconcileItem, htype, hdata, if_pos hlen, hfind,
      eq_self_iff_true, if_true]
  · intro hnames hpn
    subst hnames
    simp only [partNumOfProduct] at hpn
    have hfind : (n0 :: rest).find?
        (fun n => jsStartsWith n (jsToLower (jsOr p.partName (.str "")).jsToString)) =
        some n0 := by
      apply List.find?_cons_of_pos
      rw [hpn]
      exact jsStartsWith_empty n0
    simp only [reconcileProduct, hfind]
  · intro htype hdata hlen
    have hnot : ¬ 2 < d.length := by omega
    simp only [reconcileItem, htype, hdata, if_neg hnot, eq_self_iff_true, if_true]
  · intro htype hdata
    simp only [reconcileItem, htype, hdata, eq_self_iff_true, if_true]

theorem C9_empty_part_amended_witness :
    reconcileItem ["a.stp"] c9rowEmpty =
      { c9rowEmpty with data := some (c9data.set 1 (.str "a.stp")) } :=
  (C9_empty_part_amended ["a.stp"] c9rowEmpty c9data c9prod "a.stp" []).1
    rfl rfl rfl (by decide) rfl

/-- The event list of an emitter run that succeeded (`[]` on error). -/
def exceptEvs : Except String (List Ev) → List Ev
  | .ok l => l
  | .error _ => []

/-- Whether a handler stage succeeded. -/
def exceptIsOk {α : Type} : Except String α → Bool
  | .ok _ => true
  | .error _ => false

/-- Whether the event list embeds any image. -/
def hasAnyImage (evs : List Ev) : Bool :=
  evs.any fun e =>
    match e with
    | .addImage _ _ => true
    | _ => false

/-- A data row whose image slot (data index 1) names an image present in
`c6images`, with the schema's usual row height 22. -/
def c6data : List JValue :=
  [.num 1, .str "part1.stp", .str "P-1", .str "支架", .str "", .str "alu",
   .num 2, .str "", .str ""]

/-- The layout row carrying `c6data`. -/
def c6row : LayoutItem :=
  { type := "main_table_data_row", data := some c6data, height := some 22 }

/-- An image map holding bytes for the row's image reference. -/
def c6images : List (String × ImgBuf) := [("part1.stp", [137, 80, 78, 71])]

/-- C6: for a `main_table_data_row` whose image slot is a key of the image
map, `buildProductionOrder` does embed the bytes as a cell-anchored image
at column B of the row — but the row's final height is its `height` field
(22 here), not at least 80: the `row.height = Math.max(row.height || 18,
80)` inside the image branch is immediately overwritten by the
unconditional `row.height = item.height` that follows the `switch`, so
the claimed minimum image row height never survives.  (The quotation
emitter keeps its 80; this dead store is the production-order slip.) -/
theorem C6_image_row_height_overwritten :
    exceptIsOk (buildProductionOrder [c6row] c6images) = true ∧
    hasImageAt (exceptEvs (buildProductionOrder [c6row] c6images)) "B1:B1" = true ∧
    lastHeight (exceptEvs (buildProductionOrder [c6row] c6images)) 1 =
      some (.num 22) ∧
    ¬(80 : Int) ≤ 22 :=
  ⟨rfl, rfl, rfl, by decide⟩

/-- No image bytes are available for the image reference of data array
`d` in `images`: the slot is absent, falsy, or its string form is not a
key of the map. -/
def noImageFor (images : List (String × ImgBuf)) (d : List JValue) : Prop :=
  match d.get? 1 with
  | none => True
  | some v => v.truthy = false ∨ images.lookup v.jsToString = none

/-- C7: a document row whose image reference is absent from the
filename→buffer map is emitted by both emitters without an error and
without an embedded image: `buildProductionOrder` emits just the row
values and the row's own layout height (its per-row default), and
`buildQuotation` emits the product row at the default height 18. -/
theorem C7_absent_image_graceful (images : List (String × ImgBuf)) (r : Nat)
    (item : LayoutItem) (d : List JValue) (p : QProduct)
    (htype : item.type = "main_table_data_row") (hdata : item.data = some d)
    (habs : noImageFor images d)
    (habsP : images.lookup ((jsOr p.partImage p.partName).jsToString) = none) :
    buildPOItemFull images r item =
      .ok [.setRowValues r ((item.headers.or item.data).getD []),
           .setHeight r (toRH item.height)] ∧
    hasAnyImage (exceptEvs (buildPOItemFull images r item)) = false ∧
    lastHeight (exceptEvs (buildPOItemFull images r item)) r =
      some (toRH item.height) ∧
    quoteProductRow images r p =
      [.setRowValues r [p.seqNo, p.partImage, p.partName, p.surface, p.material,
        p.quantity, .str "", .str "", p.notes],
       .setHeight r (.num 18)] ∧
    hasAnyImage (quoteProductRow images r p) = false := by
  have hne1 : ¬ item.type = "title_row" := by rw [htype]; decide
  have hne2 : ¬ item.type = "header_detail_row" := by rw [htype]; decide
  have hor : item.type = "main_table_header_row" ∨
      item.type = "main_table_data_row" := Or.inr htype
  have hitem : buildPOItem images r item =
      .ok [.setRowValues r ((item.headers.or item.data).getD [])] := by
    unfold noImageFor at habs
    simp only [buildPOItem, htype, hdata]
    rw [if_neg (show ¬("main_table_data_row" : String) = "title_row" by decide)]
    rw [if_neg (show ¬("main_table_data_row" : String) = "header_detail_row" by decide)]
    simp only [or_true, if_true]
    cases hv : d.get? 1 with
    | none =>
      cases item.headers <;> rfl
    | some v =>
      rw [hv] at habs
      rcases habs with hfalsy | hlook
      · cases item.headers <;> simp [hfalsy]
      · cases htr : v.truthy
        · cases item.headers <;> simp [htr]
        · cases item.headers <;> simp [htr, hlook]
  have hfull : buildPOItemFull images r item =
      .ok [.setRowValues r ((item.headers.or item.data).getD []),
           .setHeight r (toRH item.height)] := by
    simp only [buildPOItemFull, hitem]
    rfl
  have hquote : quoteProductRow images r p =
      [.setRowValues r [p.seqNo, p.partImage, p.partName, p.surface, p.material,
        p.quantity, .str "", .str "", p.notes],
       .setHeight r (.num 18)] := by
    simp only [quoteProductRow, habsP]
  refine ⟨hfull, ?_, ?_, hquote, ?_⟩
  · rw [hfull]
    rfl
  · rw [hfull]
    simp [lastHeight, exceptEvs]
  · rw [hquote]
    rfl

theorem C7_absent_image_graceful_witness :
    hasAnyImage (exceptEvs (buildPOItemFull [] 1 c6row)) = false ∧
    hasAnyImage (quoteProductRow [] 1 c1prod) = false :=
  ⟨(C7_absent_image_graceful [] 1 c6row c6data c1prod rfl rfl
      (Or.inr rfl) rfl).2.1,
   (C7_absent_image_graceful [] 1 c6row c6data c1prod rfl rfl
      (Or.inr rfl) rfl).2.2.2.2⟩

/-- The shapes a layout item may have without crashing the
production-order emitter: a title row needs a present merge span
containing `":"`, a header-detail row a present `cells` array (possibly
empty), a data row a present `data` array (of any length); header rows
and unknown types never crash. -/
def emitterSafe (item : LayoutItem) : Bool :=
  if item.type = "title_row" then
    match item.merge_cells with
    | some mc => ((splitOnColon mc).get? 1).isSome
    | none => false
  else if item.type = "header_detail_row" then item.cells.isSome
  else if item.type = "main_table_data_row" then item.data.isSome
  else true

theorem buildPOItemFull_isOk (images : List (String × ImgBuf)) (r : Nat)
    (item : LayoutItem) :
    exceptIsOk (buildPOItemFull images r item) = emitterSafe item := by
  simp only [buildPOItemFull, emitterSafe]
  by_cases h1 : item.type = "title_row"
  · simp only [buildPOItem, h1, eq_self_iff_true, if_true]
    cases hmc : item.merge_cells with
    | none => rfl
    | some mc =>
      cases hsp : (splitOnColon mc)[1]? with
      | none => simp [hsp, exceptIsOk]
      | some tgt => simp [hsp, exceptIsOk]
  · simp only [buildPOItem, if_neg h1]
    by_cases h2 : item.type = "header_detail_row"
    · simp only [h2, eq_self_iff_true, if_true]
      cases item.cells with
      | none => rfl
      | some cs => rfl
    · simp only [if_neg h2]
      by_cases h3 : item.type = "main_table_data_row"
      · simp only [h3, eq_self_iff_true, if_true, or_true]
        cases hd : item.data with
        | none => rfl
        | some d =>
          cases hd1 : d[1]? with
          | none => simp [hd1, exceptIsOk]
          | some v =>
            cases htr : v.truthy with
            | false => simp [hd1, htr, exceptIsOk]
            | true =>
              cases hlk : images.lookup v.jsToString with
              | none => simp [hd1, htr, hlk, exceptIsOk]
              | some img => simp [hd1, htr, hlk, exceptIsOk]
      · by_cases h4 : item.type = "main_table_header_row"
        · simp only [h4, eq_self_iff_true, true_or, if_true, if_neg h3]
          rfl
        · have hno : ¬(item.type = "main_table_header_row" ∨
              item.type = "main_table_data_row") := by
            intro h
            rcases h with h | h
            · exact h4 h
            · exact h3 h
          simp only [if_neg hno, if_neg h3]
          rfl

theorem buildPORows_isOk (images : List (String × ImgBuf)) (layout : List LayoutItem) :
    ∀ r, exceptIsOk (buildPORows images r layout) = layout.all emitterSafe := by
  induction layout with
  | nil => intro r; rfl
  | cons item rest ih =>
    intro r
    simp only [buildPORows, List.all_cons]
    have hitem := buildPOItemFull_isOk images r item
    cases hfull : buildPOItemFull images r item with
    | error e =>
      rw [hfull] at hitem
      simp only [exceptIsOk] at hitem
      rw [← hitem]
      rfl
    | ok evs =>
      rw [hfull] at hitem
      simp only [exceptIsOk] at hitem
      rw [← hitem]
      simp only [Bool.true_and]
      cases hrest : buildPORows images (r + 1) rest with
      | error e2 =>
        have := ih (r + 1)
        rw [hrest] at this
        simp only [exceptIsOk] at this
        rw [← this]
        rfl
      | ok evs2 =>
        have := ih (r + 1)
        rw [hrest] at this
        simp only [exceptIsOk] at this
        rw [← this]
        rfl

theorem reconcileItem_emitterSafe (names : List String) (item : LayoutItem) :
    emitterSafe (reconcileItem names item) = emitterSafe item := by
  by_cases h : item.type = "main_table_data_row"
  · simp only [reconcileItem, h, eq_self_iff_true, if_true]
    cases hd : item.data with
    | none => rfl
    | some d =>
      by_cases hlen : 2 < d.length
      · simp only [if_pos hlen]
        cases names.find? (fun n =>
            jsStartsWith n (jsToLower (jsOrEmptyOpt (d.get? 2)).jsToString)) with
        | none => rfl
        | some m =>
          simp only [emitterSafe, h]
          rw [if_neg (show ¬("main_table_data_row" : String) = "title_row" by decide),
            if_neg (show ¬("main_table_data_row" : String) = "header_detail_row" by decide)]
          simp [hd]
      · simp only [if_neg hlen]
  · simp only [reconcileItem, if_neg h]

theorem all_comp_congr {α : Type} (f : α → α) (p : α → Bool)
    (h : ∀ x, p (f x) = p x) (l : List α) : l.all (p ∘ f) = l.all p := by
  induction l with
  | nil => rfl
  | cons a as ih => simp only [List.all_cons, Function.comp_apply, h a, ih]

theorem isNull_eq_false {v : JValue} (h : v ≠ .null) : v.isNull = false := by
  cases v with
  | null => exact absurd rfl h
  | bool b => rfl
  | num n => rfl
  | str s => rfl
  | arr xs => rfl
  | obj fs => rfl

theorem quoteProductsEvsV_ok (images : List (String × ImgBuf)) :
    ∀ (elems : List JValue) (r : Nat), (∀ x ∈ elems, x ≠ .null) →
      ∃ evs, quoteProductsEvsV images r elems = .ok evs := by
  intro elems
  induction elems with
  | nil => exact fun r _ => ⟨[], rfl⟩
  | cons e rest ih =>
    intro r h
    obtain ⟨evs, hevs⟩ := ih (r + 1) (fun x hx => h x (List.mem_cons_of_mem _ hx))
    have hne := h e (List.mem_cons_self e rest)
    refine ⟨quoteProductRowV images r e ++ evs, ?_⟩
    cases e with
    | null => exact absurd rfl hne
    | bool b => simp only [quoteProductsEvsV, hevs]
    | num n => simp only [quoteProductsEvsV, hevs]
    | str s => simp only [quoteProductsEvsV, hevs]
    | arr xs => simp only [quoteProductsEvsV, hevs]
    | obj fs => simp only [quoteProductsEvsV, hevs]

/-- C2 amended: the handler performs no §3 schema validation after the
two `JSON.parse` calls; the only errors are reads that actually throw.
For a quotation of the §3 container shape, post-parse processing
succeeds exactly when every layout row avoids an emitter crash
(`emitterSafe`): title rows need a present colon-bearing merge span,
header-detail rows a present `cells` array, data rows a present `data`
array — so a data row whose data array does not have 9 values, a
header-detail row with an empty cells list, and a title row with no
text are all emitted without an error.  On the quotation side the
unvalidated shapes that do fail are likewise only the throwing reads:
an absent or null `company_info` makes `buildQuotation` throw
(whatever the rest of the record holds), as does a non-array
`products` once `company_info` is readable, while any products array
of non-null entries — whatever their shape — is emitted without error.
Every error reaches the handler's `catch`, an error response with no
workbook artifacts. -/
theorem C2_no_schema_validation (stp : List String) (images : List (String × ImgBuf))
    (layout : List LayoutItem) (q : QuotationData) (qv : QuotationVal) :
    (exceptIsOk (processParsed stp images layout q) = layout.all emitterSafe) ∧
    (qv.company_info = none ∨ qv.company_info = some .null →
      ∃ e, buildQuotationV qv images = .error e) ∧
    (∀ ci, qv.company_info = some ci → ci ≠ .null → isArrOpt qv.products = false →
      ∃ e, buildQuotationV qv images = .error e) ∧
    (∀ ci elems, qv.company_info = some ci → ci ≠ .null →
      qv.products = some (.arr elems) → (∀ x ∈ elems, x ≠ .null) →
      ∃ evs, buildQuotationV qv images = .ok evs) := by
  refine ⟨?_, ?_, ?_, ?_⟩
  · simp only [processParsed, reconcileAll, buildProductionOrder]
    cases hrows : buildPORows images 1 (layout.map (reconcileItem (stp.map jsToLower))) with
    | error e =>
      have h2 := buildPORows_isOk images (layout.map (reconcileItem (stp.map jsToLower))) 1
      rw [hrows] at h2
      simp only [exceptIsOk] at h2
      rw [List.all_map,
        all_comp_congr _ _ (reconcileItem_emitterSafe (stp.map jsToLower))] at h2
      exact h2
    | ok evs =>
      have h2 := buildPORows_isOk images (layout.map (reconcileItem (stp.map jsToLower))) 1
      rw [hrows] at h2
      simp only [exceptIsOk] at h2
      rw [List.all_map,
        all_comp_congr _ _ (reconcileItem_emitterSafe (stp.map jsToLower))] at h2
      exact h2
  · intro h
    rcases h with h | h
    · exact ⟨"TypeError: Cannot read properties of undefined (reading party_a)",
        by simp only [buildQuotationV, h]⟩
    · exact ⟨"TypeError: Cannot read properties of null (reading party_a)",
        by simp only [buildQuotationV, h, JValue.isNull, if_true]⟩
  · intro ci hci hnn hnarr
    have hfalse : ci.isNull = false := isNull_eq_false hnn
    refine ⟨"TypeError: q.products.forEach is not a function", ?_⟩
    simp only [buildQuotationV, hci, hfalse, Bool.false_eq_true, if_false]
    cases hp : qv.products with
    | none => rfl
    | some v =>
      cases v with
      | null => rfl
      | bool b => rfl
      | num n => rfl
      | str s => rfl
      | arr xs =>
        rw [hp] at hnarr
        simp only [isArrOpt] at hnarr
        exact Bool.noConfusion hnarr
      | obj fs => rfl
  · intro ci elems hci hnn hprod hnonnull
    have hfalse : ci.isNull = false := isNull_eq_false hnn
    obtain ⟨evs, hevs⟩ := quoteProductsEvsV_ok images elems 9 hnonnull
    simp only [buildQuotationV, hci, hfalse, Bool.false_eq_true, if_false, hprod, hevs]
    exact ⟨_, rfl⟩

/-- A data row with only 5 positional values — a §3 schema violation the
claim says is fatal. -/
def c2row : LayoutItem :=
  { type := "main_table_data_row",
    data := some [.num 1, .str "", .str "P1", .str "名", .str "规格"],
    height := some 22 }

/-- A well-formed quotation record. -/
def c2quot : QuotationData :=
  { quote_number := .str "Q-1",
    company_info :=
      ⟨.str "甲", .str "", .str "", .str "", .str "", .str "",
       .str "乙", .str "傅士勤", .str "13777479066", .str "", .str "",
       .str "杭州市富阳区"⟩,
    products := [c1prod],
    total_untaxed := .str "", processing_cycle := .str "",
    payment_terms := .str "月结30天", delivery_date := .str "",
    acceptance_standard := .str "依据约定文件进行验收",
    notice := .str "此报价单适用于子公司及关联公司。",
    signature_date := .str "2025年6月2日" }

/-- C2 counterexample: a parsed `main_table_data_row` whose data array
has 5 values instead of the schema's 9 is not rejected: the handler
emits both workbook artifacts successfully, so a shape mismatch is not a
fatal error for the request. -/
theorem C2_counterexample :
    ((c2row.data.getD []).length = 5 ∧ (5 : Nat) ≠ 9) ∧
    exceptIsOk (processParsed [] [] [c2row] c2quot) = true :=
  ⟨⟨rfl, by decide⟩, rfl⟩

/-- A quotation value with every field absent: `company_info` is
`undefined`, so `buildQuotation` throws. -/
def c2qvEmpty : QuotationVal := {}

/-- A quotation value whose `company_info` is an (empty) object and
whose `products` is an (empty) array: no read throws. -/
def c2qvGood : QuotationVal :=
  { company_info := some (.obj []), products := some (.arr []) }

theorem C2_no_schema_validation_witness :
    exceptIsOk (buildQuotationV c2qvEmpty []) = false ∧
    exceptIsOk (buildQuotationV c2qvGood []) = true := by
  constructor
  · obtain ⟨e, he⟩ :=
      (C2_no_schema_validation [] [] [] c2quot c2qvEmpty).2.1 (Or.inl rfl)
    rw [he]
    rfl
  · obtain ⟨evs, he⟩ :=
      (C2_no_schema_validation [] [] [] c2quot c2qvGood).2.2.2 (.obj []) [] rfl
        (fun hx => JValue.noConfusion hx) rfl
        (fun x hx => absurd hx (List.not_mem_nil x))
    rw [he]
    rfl

/-- Two products that agree on everything except their unit price (单价)
and line total (合计). -/
def ProductRelConf (p p' : QProduct) : Prop :=
  p.seqNo = p'.seqNo ∧ p.partImage = p'.partImage ∧ p.partName = p'.partName ∧
  p.surface = p'.surface ∧ p.material = p'.material ∧ p.quantity = p'.quantity ∧
  p.notes = p'.notes

/-- Two quotation records that agree on everything except the products'
单价/合计 values, the party-A contact/tel/fax/email/address fields, and
the party-B contact name. -/
def QuotRelConf (q q' : QuotationData) : Prop :=
  q.quote_number = q'.quote_number ∧
  q.company_info.party_a = q'.company_info.party_a ∧
  q.company_info.party_b = q'.company_info.party_b ∧
  q.company_info.tel_b = q'.company_info.tel_b ∧
  q.company_info.fax_b = q'.company_info.fax_b ∧
  q.company_info.email_b = q'.company_info.email_b ∧
  q.company_info.address_b = q'.company_info.address_b ∧
  List.Forall₂ ProductRelConf q.products q'.products ∧
  q.total_untaxed = q'.total_untaxed ∧
  q.processing_cycle = q'.processing_cycle ∧
  q.payment_terms = q'.payment_terms ∧
  q.delivery_date = q'.delivery_date ∧
  q.acceptance_standard = q'.acceptance_standard ∧
  q.notice = q'.notice ∧
  q.signature_date = q'.signature_date

theorem quoteProductRow_congr (images : List (String × ImgBuf)) (r : Nat)
    {p p' : QProduct} (h : ProductRelConf p p') :
    quoteProductRow images r p = quoteProductRow images r p' := by
  obtain ⟨h1, h2, h3, h4, h5, h6, h7⟩ := h
  simp only [quoteProductRow, h1, h2, h3, h4, h5, h6, h7]

theorem quoteProductsEvs_congr (images : List (String × ImgBuf))
    {ps ps' : List QProduct} (h : List.Forall₂ ProductRelConf ps ps') :
    ∀ r, quoteProductsEvs images r ps = quoteProductsEvs images r ps' := by
  induction h with
  | nil => intro r; rfl
  | cons hp hrest ih =>
    intro r
    simp only [quoteProductsEvs]
    rw [quoteProductRow_congr images r hp, ih (r + 1)]

/-- C10: `buildQuotation` is independent of the extracted 单价/合计
values, the party-A contact details, and the party-B contact name — two
quotation records differing only in those fields produce the same
workbook.  Moreover every product row's 单价 and 合计 cells are written
as the literal empty string, and the contact company-info row is the
constant `[联系人:, "", "", "", 联系人:贾芳]` (party-A blank, party-B the
fixed name), whatever the record holds. -/
theorem C10_confidential_fields_ignored (q q' : QuotationData)
    (images : List (String × ImgBuf)) (hrel : QuotRelConf q q') :
    buildQuotation q images = buildQuotation q' images ∧
    (∀ (r : Nat) (p : QProduct),
      Ev.setRowValues r [p.seqNo, p.partImage, p.partName, p.surface, p.material,
        p.quantity, .str "", .str "", p.notes] ∈ quoteProductRow images r p) ∧
    (buildQuotation q images).get? 7 =
      some (.setRowValues 3 [.str "联系人:", .str "", .str "", .str "",
        .str "联系人:贾芳"]) := by
  obtain ⟨h1, h2, h3, h4, h5, h6, h7, hps, h8, h9, h10, h11, h12, h13, h14⟩ := hrel
  refine ⟨?_, ?_, ?_⟩
  · have hlen := List.Forall₂.length_eq hps
    simp only [buildQuotation, h1, h2, h3, h4, h5, h6, h7, h8, h9, h10, h11,
      h12, h13, h14, hlen, quoteProductsEvs_congr images hps 9]
  · intro r p
    simp only [quoteProductRow]
    cases images.lookup ((jsOr p.partImage p.partName).jsToString) with
    | none => exact List.mem_cons_self _ _
    | some img => exact List.mem_cons_self _ _
  · rfl

/-- A concrete quotation record with confidential fields filled in. -/
def c10q : QuotationData :=
  { c2quot with
    company_info := { c2quot.company_info with
      contact_a := .str "张三", tel_a := .str "123", fax_a := .str "456",
      email_a := .str "a@b.c", address_a := .str "路1号",
      contact_b := .str "李四" },
    products := [{ c1prod with unitPrice := .str "99.50", lineTotal := .str "199.00" }] }

/-- The same record with every confidential field changed. -/
def c10qAlt : QuotationData :=
  { c2quot with
    company_info := { c2quot.company_info with
      contact_a := .str "王五", tel_a := .str "999", fax_a := .str "000",
      email_a := .str "x@y.z", address_a := .str "路2号",
      contact_b := .str "赵六" },
    products := [{ c1prod with unitPrice := .str "1.00", lineTotal := .str "2.00" }] }

theorem C10_confidential_fields_ignored_witness :
    buildQuotation c10q [] = buildQuotation c10qAlt [] :=
  (C10_confidential_fields_ignored c10q c10qAlt []
    ⟨rfl, rfl, rfl, rfl, rfl, rfl, rfl,
     List.Forall₂.cons ⟨rfl, rfl, rfl, rfl, rfl, rfl, rfl⟩ List.Forall₂.nil,
     rfl, rfl, rfl, rfl, rfl, rfl, rfl⟩).1

/-- The image the per-file loop body extracts for one file, if any: the
content of the first non-directory png/jpg/jpeg entry of a successfully
fetched archive. -/
def renderYields (render : StpFile → RenderResult) (f : StpFile) : Option ImgBuf :=
  match render f with
  | .httpFail => none
  | .thrown => none
  | .okZip entries =>
    match entries.find? (fun e => !e.isDir && isImageName e.name) with
    | some e => some e.content
    | none => none

theorem renderStep_eq (render : StpFile → RenderResult)
    (m : List (String × ImgBuf)) (f : StpFile) :
    renderStep render m f =
      match renderYields render f with
      | some buf => objSet m f.name buf
      | none => m := by
  cases hr : render f with
  | httpFail => simp [renderStep, renderYields, hr]
  | thrown => simp [renderStep, renderYields, hr]
  | okZip entries =>
    cases hf : entries.find? (fun e => !e.isDir && isImageName e.name) with
    | none => simp [renderStep, renderYields, hr, hf]
    | some e => simp [renderStep, renderYields, hr, hf]

theorem objSet_keys_eq (m : List (String × ImgBuf)) (k : String) (v : ImgBuf) :
    (objSet m k v).map Prod.fst =
      if m.any (fun p => p.1 = k) then m.map Prod.fst
      else m.map Prod.fst ++ [k] := by
  unfold objSet
  split
  · rw [List.map_map]
    apply List.map_congr_left
    intro p _
    by_cases hp : p.1 = k
    · simp [hp]
    · simp [hp]
  · simp

theorem objSet_keys_nodup {m : List (String × ImgBuf)} {k : String} {v : ImgBuf}
    (h : (m.map Prod.fst).Nodup) : ((objSet m k v).map Prod.fst).Nodup := by
  rw [objSet_keys_eq]
  split
  · exact h
  · rename_i hany
    have hk : k ∉ m.map Prod.fst := by
      intro hmem
      obtain ⟨p, hp, hpk⟩ := List.mem_map.mp hmem
      exact hany (List.any_eq_true.mpr ⟨p, hp, by simp [hpk]⟩)
    simp only [List.nodup_append, List.nodup_cons, List.not_mem_nil,
      not_false_eq_true, List.nodup_nil, and_true, true_and]
    constructor
    · exact h
    · intro a ha hb
      simp only [List.mem_singleton] at hb
      exact hk (hb ▸ ha)

theorem lookup_mapReplace_ne (m : List (String × ImgBuf)) (k : String) (v : ImgBuf)
    (k' : String) (h : k' ≠ k) :
    (m.map fun p => if p.1 = k then (k, v) else p).lookup k' = m.lookup k' := by
  induction m with
  | nil => rfl
  | cons p ps ih =>
    obtain ⟨p1, p2⟩ := p
    simp only [List.map_cons]
    by_cases hp : p1 = k
    · subst hp
      rw [if_pos rfl, List.lookup_cons, List.lookup_cons]
      have hne : (k' == p1) = false := beq_eq_false_iff_ne.mpr h
      rw [hne]
      exact ih
    · rw [if_neg (show ¬((p1, p2).1 = k) from hp), List.lookup_cons,
        List.lookup_cons]
      cases hpk : (k' == p1) with
      | false => exact ih
      | true => rfl

theorem lookup_mapReplace_self (m : List (String × ImgBuf)) (k : String) (v : ImgBuf)
    (hany : m.any (fun p => p.1 = k) = true) :
    (m.map fun p => if p.1 = k then (k, v) else p).lookup k = some v := by
  induction m with
  | nil => simp at hany
  | cons p ps ih =>
    obtain ⟨p1, p2⟩ := p
    simp only [List.map_cons]
    by_cases hp : p1 = k
    · subst hp
      rw [if_pos rfl, List.lookup_cons]
      have hself : (p1 == p1) = true := beq_self_eq_true p1
      rw [hself]
    · rw [if_neg (show ¬((p1, p2).1 = k) from hp), List.lookup_cons]
      have hany2 : ps.any (fun p => p.1 = k) = true := by
        simp only [List.any_cons, Bool.or_eq_true, decide_eq_true_eq] at hany
        rcases hany with h2 | h2
        · exact absurd h2 hp
        · exact h2
      have hne : (k == p1) = false := beq_eq_false_iff_ne.mpr
        (fun he => hp he.symm)
      rw [hne]
      exact ih hany2

theorem lookup_append_single_self (m : List (String × ImgBuf)) (k : String)
    (v : ImgBuf) :
    (∀ p ∈ m, p.1 ≠ k) → (m ++ [(k, v)]).lookup k = some v := by
  induction m with
  | nil =>
    intro _
    rw [List.nil_append, List.lookup_cons]
    rw [beq_self_eq_true k]
  | cons p ps ih =>
    intro hnone
    obtain ⟨p1, p2⟩ := p
    have hne : (k == p1) = false := beq_eq_false_iff_ne.mpr
      (fun he => hnone (p1, p2) (List.mem_cons_self _ _) he.symm)
    rw [List.cons_append, List.lookup_cons, hne]
    exact ih (fun q hq => hnone q (List.mem_cons_of_mem _ hq))

theorem lookup_append_single_ne (m : List (String × ImgBuf)) (k : String)
    (v : ImgBuf) (k' : String) (h : k' ≠ k) :
    (m ++ [(k, v)]).lookup k' = m.lookup k' := by
  induction m with
  | nil =>
    rw [List.nil_append, List.lookup_cons]
    have hne : (k' == k) = false := beq_eq_false_iff_ne.mpr h
    rw [hne]
  | cons p ps ih =>
    obtain ⟨p1, p2⟩ := p
    rw [List.cons_append, List.lookup_cons, List.lookup_cons]
    cases hpk : (k' == p1) with
    | false => exact ih
    | true => rfl

theorem lookup_objSet_self (m : List (String × ImgBuf)) (k : String) (v : ImgBuf) :
    (objSet m k v).lookup k = some v := by
  unfold objSet
  split
  · rename_i hany
    exact lookup_mapReplace_self m k v hany
  · rename_i hany
    apply lookup_append_single_self
    intro p hp he
    exact hany (List.any_eq_true.mpr ⟨p, hp, by simp [he]⟩)

theorem lookup_objSet_ne (m : List (String × ImgBuf)) (k : String) (v : ImgBuf)
    (k' : String) (h : k' ≠ k) :
    (objSet m k v).lookup k' = m.lookup k' := by
  unfold objSet
  split
  · exact lookup_mapReplace_ne m k v k' h
  · exact lookup_append_single_ne m k v k' h

theorem renderStep_lookup_ne (render : StpFile → RenderResult)
    (m : List (String × ImgBuf)) (g : StpFile) (k : String) (h : k ≠ g.name) :
    (renderStep render m g).lookup k = m.lookup k := by
  rw [renderStep_eq]
  cases renderYields render g with
  | none => rfl
  | some buf => exact lookup_objSet_ne m g.name buf k h

theorem renderFold_keys (render : StpFile → RenderResult) :
    ∀ (files : List StpFile) (m : List (String × ImgBuf)) (k : String),
      k ∈ (files.foldl (renderStep render) m).map Prod.fst →
      k ∈ m.map Prod.fst ∨ k ∈ files.map StpFile.name := by
  intro files
  induction files with
  | nil => intro m k h; exact Or.inl h
  | cons g gs ih =>
    intro m k h
    rw [List.foldl_cons] at h
    rcases ih (renderStep render m g) k h with h2 | h2
    · rw [renderStep_eq] at h2
      cases hy : renderYields render g with
      | none =>
        rw [hy] at h2
        exact Or.inl h2
      | some buf =>
        rw [hy] at h2
        rw [objSet_keys_eq] at h2
        split at h2
        · exact Or.inl h2
        · rcases List.mem_append.mp h2 with h3 | h3
          · exact Or.inl h3
          · simp only [List.mem_singleton] at h3
            exact Or.inr (by simp [h3])
    · exact Or.inr (List.mem_cons_of_mem _ h2)

theorem renderFold_nodup (render : StpFile → RenderResult) :
    ∀ (files : List StpFile) (m : List (String × ImgBuf)),
      (m.map Prod.fst).Nodup →
      ((files.foldl (renderStep render) m).map Prod.fst).Nodup := by
  intro files
  induction files with
  | nil => intro m h; exact h
  | cons g gs ih =>
    intro m h
    rw [List.foldl_cons]
    apply ih
    rw [renderStep_eq]
    cases renderYields render g with
    | none => exact h
    | some buf => exact objSet_keys_nodup h

theorem renderFold_agree (f : StpFile) (render render' : StpFile → RenderResult) :
    ∀ (files : List StpFile) (m m' : List (String × ImgBuf)),
      (∀ g ∈ files, g ≠ f → render g = render' g) →
      (∀ k, k ≠ f.name → m.lookup k = m'.lookup k) →
      ∀ k, k ≠ f.name →
        (files.foldl (renderStep render) m).lookup k =
        (files.foldl (renderStep render') m').lookup k := by
  intro files
  induction files with
  | nil => intro m m' _ hmm k hk; exact hmm k hk
  | cons g gs ih =>
    intro m m' hag hmm k hk
    rw [List.foldl_cons, List.foldl_cons]
    apply ih (renderStep render m g) (renderStep render' m' g)
      (fun x hx hxf => hag x (List.mem_cons_of_mem _ hx) hxf) ?_ k hk
    intro k2 hk2
    by_cases hgf : g = f
    · subst hgf
      rw [renderStep_lookup_ne render m g k2 hk2,
        renderStep_lookup_ne render' m' g k2 hk2]
      exact hmm k2 hk2
    · have heq := hag g (List.mem_cons_self _ _) hgf
      rw [renderStep_eq, renderStep_eq]
      have hyeq : renderYields render g = renderYields render' g := by
        unfold renderYields
        rw [heq]
      rw [← hyeq]
      cases renderYields render g with
      | none => exact hmm k2 hk2
      | some buf =>
        by_cases hk2g : k2 = g.name
        · subst hk2g
          rw [lookup_objSet_self, lookup_objSet_self]
        · rw [lookup_objSet_ne m g.name buf k2 hk2g,
            lookup_objSet_ne m' g.name buf k2 hk2g]
          exact hmm k2 hk2

theorem renderFold_allfail (render : StpFile → RenderResult) (k : String) :
    ∀ (files : List StpFile) (m : List (String × ImgBuf)),
      (∀ g ∈ files, g.name = k → renderYields render g = none) →
      m.lookup k = none →
      (files.foldl (renderStep render) m).lookup k = none := by
  intro files
  induction files with
  | nil => intro m _ hm; exact hm
  | cons g gs ih =>
    intro m hfail hm
    rw [List.foldl_cons]
    apply ih (renderStep render m g)
      (fun x hx => hfail x (List.mem_cons_of_mem _ hx))
    by_cases hg : g.name = k
    · have hy := hfail g (List.mem_cons_self _ _) hg
      rw [renderStep_eq, hy]
      exact hm
    · rw [renderStep_lookup_ne render m g k (fun he => hg he.symm)]
      exact hm

/-- C8: `renderStpFiles` always returns a map (per-file failures are
swallowed by the loop's `continue`/`catch`, never thrown): its keys are
distinct and drawn from the input file names (at most one entry per
file); a file whose every render attempt fails (non-success status,
or an exception anywhere in its `try` body) contributes no entry under
its name; and changing the renderer's behaviour on one file leaves the
entries of every other name untouched. -/
theorem C8_render_per_file_isolation (configured : Bool)
    (render render' : StpFile → RenderResult) (files : List StpFile)
    (f : StpFile) :
    ((renderStpFiles configured render files).map Prod.fst).Nodup ∧
    (∀ k ∈ (renderStpFiles configured render files).map Prod.fst,
      k ∈ files.map StpFile.name) ∧
    ((∀ g ∈ files, g ≠ f → render g = render' g) →
      ∀ k, k ≠ f.name →
        (renderStpFiles configured render files).lookup k =
        (renderStpFiles configured render' files).lookup k) ∧
    (∀ k, (∀ g ∈ files, g.name = k → renderYields render g = none) →
      (renderStpFiles configured render files).lookup k = none) := by
  unfold renderStpFiles
  cases configured with
  | false =>
    refine ⟨List.nodup_nil, ?_, ?_, ?_⟩
    · intro k h
      simp at h
    · intro _ k _
      rfl
    · intro k _
      rfl
  | true =>
    simp only [Bool.not_true, Bool.false_eq_true, if_neg, if_false]
    refine ⟨renderFold_nodup render files [] List.nodup_nil, ?_, ?_, ?_⟩
    · intro k h
      rcases renderFold_keys render files [] k h with h2 | h2
      · simp at h2
      · exact h2
    · intro hag k hk
      exact renderFold_agree f render render' files [] [] hag
        (fun _ _ => rfl) k hk
    · intro k hfail
      exact renderFold_allfail render k files [] hfail rfl

/-- A renderer that always throws. -/
def throwingRenderer : StpFile → RenderResult := fun _ => .thrown

theorem C8_render_per_file_isolation_witness :
    (renderStpFiles true throwingRenderer [⟨"/tmp/u/a.stp", "a.stp"⟩]).lookup
      "a.stp" = none :=
  (C8_render_per_file_isolation true throwingRenderer throwingRenderer
    [⟨"/tmp/u/a.stp", "a.stp"⟩] ⟨"/tmp/u/a.stp", "a.stp"⟩).2.2.2
    "a.stp" (fun _ _ _ => rfl)

theorem rowCellsEmitted_congr {s1 s2 : Sheet} {r : Nat}
    (hr1 : 1 ≤ r) (hr2 : r ≤ maxRowScan)
    (hag : ∀ r' c, 1 ≤ r' → r' ≤ maxRowScan → 1 ≤ c → c ≤ maxColScan →
      s1 r' c = s2 r' c) :
    rowCellsEmitted s1 r = rowCellsEmitted s2 r := by
  unfold rowCellsEmitted
  apply List.filterMap_congr
  intro c hc
  obtain ⟨hc1, hc2⟩ := List.mem_range'_1.mp hc
  rw [hag r c hr1 hr2 hc1 (by omega)]

theorem any_congr_mem {α : Type} {p q : α → Bool} {l : List α}
    (h : ∀ x ∈ l, p x = q x) : l.any p = l.any q := by
  induction l with
  | nil => rfl
  | cons a as ih =>
    simp only [List.any_cons, h a (List.mem_cons_self a as),
      ih (fun x hx => h x (List.mem_cons_of_mem _ hx))]

theorem rowHasValue_congr {s1 s2 : Sheet} {r : Nat}
    (hr1 : 1 ≤ r) (hr2 : r ≤ maxRowScan)
    (hag : ∀ r' c, 1 ≤ r' → r' ≤ maxRowScan → 1 ≤ c → c ≤ maxColScan →
      s1 r' c = s2 r' c) :
    rowHasValue s1 r = rowHasValue s2 r := by
  unfold rowHasValue
  apply any_congr_mem
  intro c hc
  obtain ⟨hc1, hc2⟩ := List.mem_range'_1.mp hc
  rw [hag r c hr1 hr2 hc1 (by omega)]

theorem lookaheadEmpty_congr {s1 s2 : Sheet}
    (hag : ∀ r' c, 1 ≤ r' → r' ≤ maxRowScan → 1 ≤ c → c ≤ maxColScan →
      s1 r' c = s2 r' c) :
    ∀ (k start : Nat), 1 ≤ start →
      lookaheadEmpty s1 start k = lookaheadEmpty s2 start k := by
  intro k
  induction k with
  | zero => intro start _; rfl
  | succ k ih =>
    intro start hs
    unfold lookaheadEmpty
    by_cases hgt : start > maxRowScan
    · rw [if_pos hgt, if_pos hgt]
    · rw [if_neg hgt, if_neg hgt,
        rowHasValue_congr hs (by omega) hag]
      by_cases hrv : rowHasValue s2 start = true
      · rw [if_pos hrv, if_pos hrv]
      · rw [if_neg hrv, if_neg hrv, ih (start + 1) (by omega)]

theorem scanRows_congr {s1 s2 : Sheet}
    (hag : ∀ r' c, 1 ≤ r' → r' ≤ maxRowScan → 1 ≤ c → c ≤ maxColScan →
      s1 r' c = s2 r' c) :
    ∀ (fuel r : Nat) (hasAny : Bool), 1 ≤ r →
      scanRows s1 fuel r hasAny = scanRows s2 fuel r hasAny := by
  intro fuel
  induction fuel with
  | zero => intro r hasAny _; rfl
  | succ fuel ih =>
    intro r hasAny hr
    unfold scanRows
    by_cases hgt : r > maxRowScan
    · rw [if_pos hgt, if_pos hgt]
    · rw [if_neg hgt, if_neg hgt,
        rowCellsEmitted_congr hr (by omega) hag]
      by_cases hemp : (rowCellsEmitted s2 r).isEmpty = true
      · rw [if_pos hemp, if_pos hemp,
          lookaheadEmpty_congr hag 10 (r + 1) (by omega)]
        by_cases hbrk : (hasAny && decide (10 ≤ lookaheadEmpty s2 (r + 1) 10)) = true
        · rw [if_pos hbrk, if_pos hbrk]
        · rw [if_neg hbrk, if_neg hbrk, ih (r + 1) hasAny (by omega)]
      · rw [if_neg hemp, if_neg hemp, ih (r + 1) true (by omega)]

theorem rowCellsEmitted_cols (sheet : Sheet) (r : Nat) :
    ∀ ce ∈ rowCellsEmitted sheet r, 1 ≤ ce.1 ∧ ce.1 ≤ maxColScan := by
  intro ce hce
  unfold rowCellsEmitted at hce
  obtain ⟨c, hc, hfc⟩ := List.mem_filterMap.mp hce
  obtain ⟨hc1, hc2⟩ := List.mem_range'_1.mp hc
  cases hv : sheet r c with
  | absent => simp [hv] at hfc
  | val s =>
    simp only [hv] at hfc
    split at hfc
    · obtain rfl : (c, jsTrim s) = ce := by simpa using hfc
      exact ⟨hc1, by omega⟩
    · simp at hfc

theorem scanRows_window (sheet : Sheet) :
    ∀ (fuel r : Nat) (hasAny : Bool), 1 ≤ r →
      ∀ e ∈ scanRows sheet fuel r hasAny,
        (1 ≤ e.1 ∧ e.1 ≤ maxRowScan) ∧
        ∀ ce ∈ e.2, 1 ≤ ce.1 ∧ ce.1 ≤ maxColScan := by
  intro fuel
  induction fuel with
  | zero => intro r hasAny _ e he; simp [scanRows] at he
  | succ fuel ih =>
    intro r hasAny hr e he
    unfold scanRows at he
    by_cases hgt : r > maxRowScan
    · rw [if_pos hgt] at he
      simp at he
    · rw [if_neg hgt] at he
      by_cases hemp : (rowCellsEmitted sheet r).isEmpty = true
      · rw [if_pos hemp] at he
        by_cases hbrk : (hasAny && decide (10 ≤ lookaheadEmpty sheet (r + 1) 10)) = true
        · rw [if_pos hbrk] at he
          simp at he
        · rw [if_neg hbrk] at he
          exact ih (r + 1) hasAny (by omega) e he
      · rw [if_neg hemp] at he
        rcases List.mem_cons.mp he with rfl | he2
        · exact ⟨⟨hr, by omega⟩, rowCellsEmitted_cols sheet r⟩
        · exact ih (r + 1) true (by omega) e he2

theorem rowHasValue_false_cells {sheet : Sheet} {j : Nat}
    (h : rowHasValue sheet j = false) : rowCellsEmitted sheet j = [] := by
  unfold rowHasValue at h
  rw [List.any_eq_false] at h
  unfold rowCellsEmitted
  rw [List.filterMap_eq_nil]
  intro c hc
  have h2 := h c hc
  cases hv : sheet j c with
  | absent => simp [hv]
  | val s => simp [hv] at h2

theorem lookaheadEmpty_full (sheet : Sheet) :
    ∀ (k start : Nat),
      (∀ j, start ≤ j → j < start + k → rowHasValue sheet j = false) →
      start + k ≤ maxRowScan + 1 →
      lookaheadEmpty sheet start k = k := by
  intro k
  induction k with
  | zero => intro start _ _; rfl
  | succ k ih =>
    intro start hemp hb
    unfold lookaheadEmpty
    rw [if_neg (by omega), if_neg (by
      rw [hemp start (le_refl _) (by omega)]
      simp)]
    rw [ih (start + 1) (fun j h1 h2 => hemp j (by omega) (by omega)) (by omega)]
    omega

theorem scanRows_stop (sheet : Sheet) (r : Nat)
    (hr2 : r + 10 ≤ maxRowScan)
    (hempty : ∀ j, r ≤ j → j ≤ r + 10 → rowHasValue sheet j = false) :
    ∀ (fuel r' : Nat) (hasAny : Bool), 1 ≤ r' → r' ≤ r →
      (hasAny = false → ∃ r0, r' ≤ r0 ∧ r0 < r ∧ rowCellsEmitted sheet r0 ≠ []) →
      ∀ e ∈ scanRows sheet fuel r' hasAny, e.1 < r := by
  intro fuel
  induction fuel with
  | zero => intro r' hasAny _ _ _ e he; simp [scanRows] at he
  | succ fuel ih =>
    intro r' hasAny hr1 hle hinv e he
    unfold scanRows at he
    by_cases hgt : r' > maxRowScan
    · rw [if_pos hgt] at he
      simp at he
    · rw [if_neg hgt] at he
      by_cases hemp : (rowCellsEmitted sheet r').isEmpty = true
      · rw [if_pos hemp] at he
        by_cases hreq : r' = r
        · subst hreq
          cases hA : hasAny with
          | false =>
            obtain ⟨r0, h1, h2, _⟩ := hinv hA
            omega
          | true =>
            have hla : lookaheadEmpty sheet (r' + 1) 10 = 10 := by
              apply lookaheadEmpty_full
              · intro j hj1 hj2
                exact hempty j (by omega) (by omega)
              · omega
            rw [hA, hla] at he
            simp at he
        · have hlt : r' < r := by omega
          by_cases hbrk : (hasAny && decide (10 ≤ lookaheadEmpty sheet (r' + 1) 10)) = true
          · rw [if_pos hbrk] at he
            simp at he
          · rw [if_neg hbrk] at he
            apply ih (r' + 1) hasAny (by omega) (by omega) ?_ e he
            intro hA
            obtain ⟨r0, h1, h2, h3⟩ := hinv hA
            refine ⟨r0, ?_, h2, h3⟩
            rcases Nat.eq_or_lt_of_le h1 with rfl | h4
            · exact absurd h3 (by simpa [List.isEmpty_iff] using hemp)
            · omega
      · rw [if_neg hemp] at he
        have hne : r' ≠ r := by
          intro hreq
          subst hreq
          have := rowHasValue_false_cells (hempty r' (le_refl _) (by omega))
          rw [this] at hemp
          simp at hemp
        have hlt : r' < r := by omega
        rcases List.mem_cons.mp he with rfl | he2
        · exact hlt
        · exact ih (r' + 1) true (by omega) (by omega) (fun h => by simp at h) e he2

/-- A sheet with one value at A1 only. -/
def c5sheetA : Sheet := fun r c =>
  if r = 1 ∧ c = 1 then .val "x" else .absent

/-- The same sheet with an extra value far outside the 200×50 scan
window (row 300). -/
def c5sheetB : Sheet := fun r c =>
  if r = 300 ∧ c = 1 then .val "y"
  else if r = 1 ∧ c = 1 then .val "x" else .absent

/-- A sheet whose rows 2..11 are fully empty (10 consecutive empty rows)
with data at rows 1 and 12. -/
def c5gapSheet : Sheet := fun r c =>
  if (r = 1 ∨ r = 12) ∧ c = 1 then .val "x" else .absent

/-- C5 counterexample: after row 1's data, rows 2..11 are 10 consecutive
fully-empty rows, yet the scan does not stop there — row 12 is still
emitted (the code only stops after an empty row whose *next* 10 rows are
also empty, i.e. 11 in a row), contradicting the claimed
stop-after-10-consecutive-empty-rows policy. -/
theorem C5_counterexample :
    ((List.range' 2 10).all fun j => !(rowHasValue c5gapSheet j)) = true ∧
    (parseSheet c5gapSheet).map Prod.fst = [1, 12] :=
  ⟨by decide, by decide⟩

/-- C5 amended: the scan never reads or emits outside the 200-row ×
50-column window — sheets agreeing on the window scan identically, and
every emitted cell lies inside it — and, once some row has emitted data,
scanning stops *only* after an empty row followed by 10 further empty
rows fitting under the row ceiling (11 consecutive empty rows): no row
at or beyond such a run is emitted. -/
theorem C5_normalizer_window_and_stop :
    (∀ s1 s2 : Sheet,
      (∀ r c, 1 ≤ r → r ≤ maxRowScan → 1 ≤ c → c ≤ maxColScan → s1 r c = s2 r c) →
      parseSheet s1 = parseSheet s2) ∧
    (∀ (sheet : Sheet), ∀ e ∈ parseSheet sheet,
      (1 ≤ e.1 ∧ e.1 ≤ maxRowScan) ∧ ∀ ce ∈ e.2, 1 ≤ ce.1 ∧ ce.1 ≤ maxColScan) ∧
    (∀ (sheet : Sheet) (r : Nat), r + 10 ≤ maxRowScan →
      (∀ j, r ≤ j → j ≤ r + 10 → rowHasValue sheet j = false) →
      (∃ r0, 1 ≤ r0 ∧ r0 < r ∧ rowCellsEmitted sheet r0 ≠ []) →
      ∀ e ∈ parseSheet sheet, e.1 < r) := by
  refine ⟨?_, ?_, ?_⟩
  · intro s1 s2 hag
    exact scanRows_congr hag maxRowScan 1 false (le_refl 1)
  · intro sheet e he
    exact scanRows_window sheet maxRowScan 1 false (le_refl 1) e he
  · intro sheet r hr2 hempty hex e he
    exact scanRows_stop sheet r hr2 hempty maxRowScan 1 false (le_refl 1)
      (by obtain ⟨r0, h1, h2, _⟩ := hex; omega)
      (fun _ => by
        obtain ⟨r0, h1, h2, h3⟩ := hex
        exact ⟨r0, h1, h2, h3⟩) e he

theorem C5_normalizer_window_and_stop_witness :
    parseSheet c5sheetA = parseSheet c5sheetB :=
  C5_normalizer_window_and_stop.1 c5sheetA c5sheetB
    (fun r c h1 h2 h3 h4 => by
      have hne : ¬(r = 300 ∧ c = 1) := by
        intro hcon
        have h200 : maxRowScan = 200 := rfl
        omega
      simp [c5sheetA, c5sheetB, hne])

/-- Whether the text contains a `//` sequence (which the first repair
pass would delete from). -/
def hasDoubleSlash : List Char → Bool
  | '/' :: '/' :: _ => true
  | _ :: rest => hasDoubleSlash rest
  | [] => false

/-- Whether the text contains a comma followed (up to whitespace) by a
closing bracket — the pattern the third repair pass deletes. -/
def hasTrailingCommaPat : List Char → Bool
  | [] => false
  | c :: rest => (c = ',' && (wsThenBracket rest).isSome) || hasTrailingCommaPat rest

theorem stripLineComments_id : ∀ l : List Char, (∀ c ∈ l, c ≠ '/') →
    stripLineComments l = l := by
  intro l
  induction l with
  | nil => intro _; rfl
  | cons c rest ih =>
    intro h
    rw [stripLineComments, ih (fun x hx => h x (List.mem_cons_of_mem _ hx))]
    intro r1 hc _
    exact h c (List.mem_cons_self _ _) hc

theorem quotePass_id (l : List Char) (h : ∀ c ∈ l, c ≠ aposChar) :
    quotePass l = l := by
  unfold quotePass
  have h2 : ∀ a ∈ l, (if a = aposChar then '"' else a) = id a := by
    intro a ha
    simp [h a ha]
  rw [List.map_congr_left h2, List.map_id]

theorem commaPassGo_id : ∀ (fuel : Nat) (l : List Char),
    hasTrailingCommaPat l = false → commaPassGo fuel l = l := by
  intro fuel
  induction fuel with
  | zero => intro l _; rfl
  | succ fuel ih =>
    intro l h
    cases l with
    | nil => rfl
    | cons c rest =>
      simp only [hasTrailingCommaPat, Bool.or_eq_false_iff,
        Bool.and_eq_false_iff] at h
      obtain ⟨h1, h2⟩ := h
      simp only [commaPassGo]
      by_cases hc : c = ','
      · have hnone : wsThenBracket rest = none := by
          rcases h1 with h1 | h1
          · rw [hc] at h1
            simp at h1
          · cases hw : wsThenBracket rest
            · rfl
            · rw [hw] at h1
              simp at h1
        rw [if_pos hc]
        simp only [hnone]
        rw [hc, ih rest h2]
      · rw [if_neg hc, ih rest h2]

theorem commaPass_id (l : List Char) (h : hasTrailingCommaPat l = false) :
    commaPass l = l :=
  commaPassGo_id l.length l h

theorem semiTickPass_id (l : List Char) (h : ∀ c ∈ l, c ≠ ';' ∧ c ≠ tickChar) :
    semiTickPass l = l := by
  unfold semiTickPass
  rw [List.filter_eq_self]
  intro a ha
  simp [h a ha |>.1, h a ha |>.2]

/-- C3 counterexample input: a well-formed JSON literal whose string
content contains a semicolon. -/
def c3lit : String := "[\"a;b\"]"

/-- The first string of a parsed array, to tell the two parses apart. -/
def getFirstStr : Option JValue → Option String
  | some (.arr (.str s :: _)) => some s
  | _ => none

/-- C3 counterexample: `["a;b"]` is already well-formed (double-quoted,
no trailing commas, no comments — it parses), yet the repair pass
deletes the semicolon *inside the string*, producing `["ab"]`, which
parses to a different value: repairing well-formed input is not
parse-preserving. -/
theorem C3_counterexample :
    (jsonParse c3lit).isSome = true ∧
    jsonParse (clean c3lit) ≠ jsonParse c3lit := by
  constructor
  · rfl
  · intro hcontra
    have h2 := congrArg getFirstStr hcontra
    rw [show getFirstStr (jsonParse (clean c3lit)) = some "ab" from rfl,
        show getFirstStr (jsonParse c3lit) = some "a;b" from rfl] at h2
    simp only [Option.some.injEq] at h2
    exact absurd h2 (by decide)

/-- C3 amended: the repair pass leaves a literal unchanged (up to
trimming outer whitespace) — and hence preserves its parse — provided
the literal contains, anywhere including inside its string values, no
slash, apostrophe, semicolon or backtick characters and no comma
followed (up to whitespace) by a closing bracket.  Well-formed JSON can
violate these only inside string values, which is exactly where the
counterexample lives. -/
theorem C3_repair_preserves_restricted (s : String)
    (hchars : ∀ c ∈ s.data, c ≠ '/' ∧ c ≠ aposChar ∧ c ≠ ';' ∧ c ≠ tickChar)
    (hcomma : hasTrailingCommaPat s.data = false) :
    clean s = jsTrim s ∧
    (jsTrim s = s → jsonParse (clean s) = jsonParse s) := by
  have hmain : clean s = jsTrim s := by
    unfold clean
    rw [stripLineComments_id s.data (fun c hc => (hchars c hc).1),
      quotePass_id s.data (fun c hc => (hchars c hc).2.1),
      commaPass_id s.data hcomma,
      semiTickPass_id s.data (fun c hc => (hchars c hc).2.2)]
  refine ⟨hmain, ?_⟩
  intro htrim
  rw [hmain, htrim]

theorem C3_repair_preserves_restricted_witness :
    clean "[\"ab\", 1]" = jsTrim "[\"ab\", 1]" :=
  (C3_repair_preserves_restricted "[\"ab\", 1]" (by decide) (by decide)).1

/-- The text contains, at some position, a `const <name> = <ob>…<cb>;`
literal (the structure pattern the extractor's regex searches for). -/
def containsStructLiteral (name : List Char) (ob cb : Char) (l : List Char) : Prop :=
  ∃ i, (tryStructAt name ob cb (l.drop i)).isSome = true

theorem findStruct_isSome (name : List Char) (ob cb : Char) :
    ∀ l : List Char, (findStruct name ob cb l).isSome = true ↔
      containsStructLiteral name ob cb l := by
  intro l
  induction l with
  | nil =>
    unfold containsStructLiteral
    constructor
    · intro h
      exact Bool.noConfusion h
    · intro ⟨i, hi⟩
      rw [List.drop_nil] at hi
      exact Bool.noConfusion hi
  | cons c rest ih =>
    unfold containsStructLiteral
    simp only [findStruct]
    cases ht : tryStructAt name ob cb (c :: rest) with
    | some m =>
      constructor
      · intro _
        exact ⟨0, by rw [List.drop_zero, ht]; rfl⟩
      · intro _
        rfl
    | none =>
      constructor
      · intro hf
        obtain ⟨i, hi⟩ := (ih.mp hf)
        exact ⟨i + 1, by simpa using hi⟩
      · intro ⟨i, hi⟩
        cases i with
        | zero =>
          rw [List.drop_zero, ht] at hi
          simp at hi
        | succ j =>
          exact ih.mpr ⟨j, by simpa using hi⟩

theorem extractAndParse_ok_eq (txt : String) (a o : String)
    (h : extractStructures txt = .ok (a, o)) :
    extractAndParse txt =
      (match jsonParseE a with
       | .error e => .error e
       | .ok la =>
         match jsonParseE o with
         | .error e => .error e
         | .ok qo => .ok (la, qo)) := by
  unfold extractAndParse
  rw [h]

theorem extractAndParse_err_eq (txt : String) (e0 : String)
    (h : extractStructures txt = .error e0) :
    extractAndParse txt = .error e0 := by
  unfold extractAndParse
  rw [h]

theorem jsonParseE_error (s : String) (e : String) (h : jsonParseE s = .error e) :
    e = "SyntaxError: JSON parse error" := by
  unfold jsonParseE at h
  cases hj : jsonParse s with
  | some v =>
    rw [hj] at h
    exact absurd h (by simp)
  | none =>
    rw [hj] at h
    exact (Except.error.inj h).symm

/-- The fixed error thrown when either named literal is missing. -/
def notFoundMsg : String :=
  "Failed to extract required data structures from Gemini output."

/-- The modelled `JSON.parse` failure message. -/
def syntaxMsg : String := "SyntaxError: JSON parse error"

/-- C4: `extractStructures` succeeds exactly when, after stripping code
fences, the text contains both a `const excelLayoutData = [...];` and a
`const quotationData = {...};` literal; on success it returns the two
repaired (cleaned) first matches, and on failure the fixed "not found"
message.  In the combined extract-and-parse stage every error is either
that "not found" message or the parse-stage `SyntaxError`, the former
occurring exactly when the literals are missing — so the two failure
kinds are distinguishable. -/
theorem C4_extract_located_iff (txt : String) :
    (exceptIsOk (extractStructures txt) = true ↔
      (containsStructLiteral "excelLayoutData".data '[' ']' (fencePass txt.data) ∧
       containsStructLiteral "quotationData".data lbraceChar rbraceChar
         (fencePass txt.data))) ∧
    (∀ a o, extractStructures txt = .ok (a, o) →
      ∃ la lo,
        findStruct "excelLayoutData".data '[' ']' (fencePass txt.data) = some la ∧
        findStruct "quotationData".data lbraceChar rbraceChar (fencePass txt.data) =
          some lo ∧
        a = clean (String.mk la) ∧ o = clean (String.mk lo)) ∧
    (∀ e, extractStructures txt = .error e → e = notFoundMsg) ∧
    (∀ e, extractAndParse txt = .error e →
      (e = notFoundMsg ∨ e = syntaxMsg) ∧
      (e = notFoundMsg ↔
        ¬(containsStructLiteral "excelLayoutData".data '[' ']' (fencePass txt.data) ∧
          containsStructLiteral "quotationData".data lbraceChar rbraceChar
            (fencePass txt.data)))) ∧
    notFoundMsg ≠ syntaxMsg := by
  have hdisj : notFoundMsg ≠ syntaxMsg := by decide
  cases hA : findStruct "excelLayoutData".data '[' ']' (fencePass txt.data) with
  | some la =>
    cases hO : findStruct "quotationData".data lbraceChar rbraceChar
        (fencePass txt.data) with
    | some lo =>
      have hok : extractStructures txt =
          .ok (clean (String.mk la), clean (String.mk lo)) := by
        simp only [extractStructures, hA, hO]
      have hcA : containsStructLiteral "excelLayoutData".data '[' ']'
          (fencePass txt.data) :=
        (findStruct_isSome _ _ _ _).mp (by rw [hA]; rfl)
      have hcO : containsStructLiteral "quotationData".data lbraceChar rbraceChar
          (fencePass txt.data) :=
        (findStruct_isSome _ _ _ _).mp (by rw [hO]; rfl)
      refine ⟨?_, ?_, ?_, ?_, hdisj⟩
      · rw [hok]
        exact ⟨fun _ => ⟨hcA, hcO⟩, fun _ => rfl⟩
      · intro a o hao
        rw [hok] at hao
        have h1 := hao
        simp only [Except.ok.injEq, Prod.mk.injEq] at h1
        exact ⟨la, lo, rfl, rfl, h1.1.symm, h1.2.symm⟩
      · intro e he
        rw [hok] at he
        exact absurd he (by simp)
      · intro e he
        rw [extractAndParse_ok_eq txt _ _ hok] at he
        have heq : e = syntaxMsg := by
          cases hpa : jsonParseE (clean (String.mk la)) with
          | error e1 =>
            rw [hpa] at he
            simp only [Except.error.injEq] at he
            rw [← he]
            exact jsonParseE_error _ _ hpa
          | ok va =>
            rw [hpa] at he
            cases hpo : jsonParseE (clean (String.mk lo)) with
            | error e2 =>
              rw [hpo] at he
              simp only [Except.error.injEq] at he
              rw [← he]
              exact jsonParseE_error _ _ hpo
            | ok vo =>
              rw [hpo] at he
              simp at he
        refine ⟨Or.inr heq, ?_⟩
        constructor
        · intro hnf
          exact absurd (hnf ▸ heq : notFoundMsg = syntaxMsg) hdisj
        · intro hcon
          exact absurd ⟨hcA, hcO⟩ hcon
    | none =>
      have herr : extractStructures txt = .error notFoundMsg := by
        simp only [extractStructures, hA, hO]
        rfl
      have hnc : ¬ containsStructLiteral "quotationData".data lbraceChar rbraceChar
          (fencePass txt.data) := by
        intro hc
        have h2 := (findStruct_isSome _ _ _ _).mpr hc
        rw [hO] at h2
        simp at h2
      refine ⟨?_, ?_, ?_, ?_, hdisj⟩
      · rw [herr]
        constructor
        · intro h
          simp [exceptIsOk] at h
        · intro ⟨_, hc⟩
          exact absurd hc hnc
      · intro a o hao
        rw [herr] at hao
        exact absurd hao (by simp)
      · intro e he
        have h2 := herr.symm.trans he
        simp only [Except.error.injEq] at h2
        exact h2.symm
      · intro e he
        have he2 := (extractAndParse_err_eq txt _ herr).symm.trans he
        simp only [Except.error.injEq] at he2
        refine ⟨Or.inl he2.symm, ?_⟩
        constructor
        · intro _
          intro ⟨_, hc⟩
          exact absurd hc hnc
        · intro _
          exact he2.symm
  | none =>
    have herr : extractStructures txt = .error notFoundMsg := by
      simp only [extractStructures, hA]
      rfl
    have hnc : ¬ containsStructLiteral "excelLayoutData".data '[' ']'
        (fencePass txt.data) := by
      intro hc
      have h2 := (findStruct_isSome _ _ _ _).mpr hc
      rw [hA] at h2
      simp at h2
    refine ⟨?_, ?_, ?_, ?_, hdisj⟩
    · rw [herr]
      constructor
      · intro h
        simp [exceptIsOk] at h
      · intro ⟨hc, _⟩
        exact absurd hc hnc
    · intro a o hao
      rw [herr] at hao
      exact absurd hao (by simp)
    · intro e he
      have h2 := herr.symm.trans he
      simp only [Except.error.injEq] at h2
      exact h2.symm
    · intro e he
      have he2 := (extractAndParse_err_eq txt _ herr).symm.trans he
      simp only [Except.error.injEq] at he2
      refine ⟨Or.inl he2.symm, ?_⟩
      constructor
      · intro _
        intro ⟨hc, _⟩
        exact absurd hc hnc
      · intro _
        exact he2.symm

/-- A model output containing both expected literals. -/
def c4sample : String := "const excelLayoutData = [1];\nconst quotationData = {};"

theorem C4_extract_located_iff_witness :
    exceptIsOk (extractStructures c4sample) = true :=
  (C4_extract_located_iff c4sample).1.mpr ⟨⟨0, by decide⟩, ⟨29, by decide⟩⟩
